import Mathlib

/-!
# gozzle: configuration normalisation and single-shot dispatch

A shallow embedding of `gozzle.go`.

* Go strings are Lean strings, `int` is `Int` (no arithmetic is performed on
  the integer fields by `validate`).
* A Go map `map[string]T` is `Option (List (String × T))`: `none` is the nil
  map, and the list enumerates the entries in the order `range` visits them.
  A well-formed map has pairwise distinct keys.
* A method with a pointer receiver that mutates its receiver and returns an
  error becomes a function returning the mutated value together with the
  error (`none` is the nil error).
-/

namespace Gozzle

/-! ## Data model -/

/-- Go error values; `errors.New msg` is `new msg`, `wrapped` is a
`*url.Error` around another error, `ext` an error produced by a library or by
the network. -/
inductive GoError where
  | new (msg : String)
  | wrapped (inner : GoError)
  | ext (code : Nat)
  deriving DecidableEq, Repr

/-- Dynamic values (`interface{}`) that may occur in a body or parameter map. -/
inductive Any where
  | null
  | bool (b : Bool)
  | int (n : Int)
  | str (s : String)
  | slice (xs : List Any)
  | dict (kv : List (String × Any))
  | func (id : Nat)

/-- Byte sequences. -/
abbrev Bytes := List Nat

/-- A Go map with string keys; `none` is the nil map. -/
abbrev GoMap (β : Type) := Option (List (String × β))

def defaultUserAgent : String := "gozzle-client-v1.0"
def defaultContentType : String := "application/json; charset=utf-8"
def defaultTimeout : Int := 5
def defaultMaxRedirects : Int := 5

/-- The constant `http.MethodGet`. -/
def MethodGet : String := "GET"

structure Config where
  URL : String
  Method : String
  BaseURL : String
  BasicAuth : GoMap String
  BearerToken : String
  Headers : GoMap String
  Timeout : Int
  Body : GoMap Any
  Params : GoMap Any
  UserAgent : String
  AcceptJSON : Bool
  Accepts : String
  AsMultipart : Bool
  AsURLEncoded : Bool
  ContentType : String
  StructScan : Option Any
  MaxRedirects : Int
  Retries : Int
  RetrySleep : Int

/-- The zero value of `Config`: what a composite literal leaves unset. -/
def Config.zero : Config :=
  { URL := "", Method := "", BaseURL := "", BasicAuth := none, BearerToken := "",
    Headers := none, Timeout := 0, Body := none, Params := none, UserAgent := "",
    AcceptJSON := false, Accepts := "", AsMultipart := false, AsURLEncoded := false,
    ContentType := "", StructScan := none, MaxRedirects := 0, Retries := 0,
    RetrySleep := 0 }

/-- A map is well formed when its keys are pairwise distinct. -/
def GoMap.WF {β : Type} : GoMap β → Prop
  | none => True
  | some kvs => (kvs.map Prod.fst).Nodup

/-! ## Library functions used by `validate` -/

/-- Modelled from the spec: `IsStringEmpty`, a helper of this repository whose
file is not part of the sources at hand. The spec describes every use of it
as a test for the empty string ("if `userAgent` is empty", "`bearerToken`
non-empty", "if `contentType` is non-empty"). -/
def IsStringEmpty (s : String) : Bool :=
  s.data.isEmpty

/-- The byte-trimming helper of `strings`: drop the leading occurrences of `c`. -/
def trimLeftByte (s : List Char) (c : Char) : List Char :=
  s.dropWhile (fun x => x == c)

/-- The byte-trimming helper of `strings`: drop the trailing occurrences of `c`. -/
def trimRightByte (s : List Char) (c : Char) : List Char :=
  (s.reverse.dropWhile (fun x => x == c)).reverse

/-- The call `strings.Trim(s, cutset)` for a cutset of one ASCII character `c`,
the only form `validate` uses: the library trims on the right, then on the left. -/
def Trim (s : String) (c : Char) : String :=
  ⟨trimLeftByte (trimRightByte s.data c) c⟩

/-- The call `errors.New`. -/
def errorsNew (msg : String) : GoError := GoError.new msg

def errConflictingAuth : GoError := errorsNew "cannot authenticate with bearer and basic auth"
def errBodyNotAllowed : GoError := errorsNew "body not allowed for 'GET' method"
def errTooManyRedirects : GoError := errorsNew "too many redirects"

/-! ## `Config.validate` -/

/-- The method `(c *Config) validate() error`: the receiver after the call and
the returned error. A guarded assignment `if p { c.F = v }` is the update of
`F` to `if p then v else c.F`; the assignments made before a failing check
are kept. -/
def Config.validate (c : Config) : Config × Option GoError :=
  let c := { c with AcceptJSON := true }
  let c := { c with
    UserAgent := if IsStringEmpty c.UserAgent then defaultUserAgent else c.UserAgent }
  let c := { c with Timeout := if c.Timeout = 0 then defaultTimeout else c.Timeout }
  let c := { c with
    MaxRedirects := if c.MaxRedirects = 0 then defaultMaxRedirects else c.MaxRedirects }
  if !IsStringEmpty c.BearerToken && c.BasicAuth.isSome then
    (c, some errConflictingAuth)
  else if c.Body.isSome && c.Method == MethodGet then
    (c, some errBodyNotAllowed)
  else
    let c := { c with Accepts := if c.AcceptJSON then "application/json" else c.Accepts }
    let c := { c with
      ContentType := if !IsStringEmpty c.ContentType then defaultContentType else c.ContentType }
    let c := { c with
      ContentType := if c.AsMultipart then "multipart/form-data" else c.ContentType }
    let c := { c with
      ContentType :=
        if c.AsURLEncoded then "application/x-www-form-url-encoded" else c.ContentType }
    let c := { c with
      BaseURL := if !IsStringEmpty c.BaseURL then Trim c.BaseURL '/' else c.BaseURL }
    (c, none)

/-! ## The `net/http` layer used by `Send` -/

/-- Token characters of RFC 7230, the table behind `validHeaderFieldByte` of
`net/textproto` and behind `validMethod` of `net/http`. -/
def isTokenChar (c : Char) : Bool :=
  let n := c.toNat
  (48 ≤ n && n ≤ 57) || (65 ≤ n && n ≤ 90) || (97 ≤ n && n ≤ 122) ||
    [33, 35, 36, 37, 38, 39, 42, 43, 45, 46, 94, 95, 96, 124, 126].contains n

/-- The canonicalising loop of `textproto.CanonicalMIMEHeaderKey`: upper case
for the first letter and for a letter after a dash, lower case elsewhere. -/
def canonicalLoop : Bool → List Char → List Char
  | _, [] => []
  | upper, c :: cs =>
    let c := if upper then c.toUpper else c.toLower
    c :: canonicalLoop (c == '-') cs

/-- The function `textproto.CanonicalMIMEHeaderKey`: a key holding a character
that is not a token character is returned unchanged. -/
def CanonicalMIMEHeaderKey (s : String) : String :=
  if s.data.all isTokenChar then ⟨canonicalLoop true s.data⟩ else s

/-- The type `http.Header`, a map from canonical names to value lists. -/
abbrev Header := List (String × List String)

/-- The method `Header.Set`: the values stored under the canonical form of
`key` are replaced by the single value `value`. -/
def Header.Set (h : Header) (key value : String) : Header :=
  (CanonicalMIMEHeaderKey key, [value]) ::
    h.filter (fun e => e.1 != CanonicalMIMEHeaderKey key)

/-- The method `Header.Get`: the first value stored under the canonical form
of `key`, or the empty string. -/
def Header.Get (h : Header) (key : String) : String :=
  match h.lookup (CanonicalMIMEHeaderKey key) with
  | some (v :: _) => v
  | _ => ""

/-- The method `Header.Values` tested for presence: is anything stored under
the canonical form of `key`. -/
def Header.Has (h : Header) (key : String) : Bool :=
  (h.lookup (CanonicalMIMEHeaderKey key)).isSome

/-- Indexing a Go map of strings: the zero value when the key is absent or
the map is nil. -/
def GoMap.index (m : GoMap String) (key : String) : String :=
  match m with
  | none => ""
  | some kvs => (kvs.lookup key).getD ""

/-- The type `http.Request`, as far as `Send` fills it. -/
structure Request where
  Method : String
  URL : String
  Body : Option Bytes
  Header : Header

/-- What the remote end answers to one request of a redirect chain. -/
inductive Reply where
  | redirect
  | response (status : Int) (body : Except GoError Bytes)
  | fail (err : GoError)

/-- The collaborators of `Send` that are not part of the repository. -/
structure Env where
  /-- The function `json.Marshal` on a body map. -/
  jsonMarshal : List (String × Any) → Except GoError Bytes
  /-- The function `url.Parse` as called by `http.NewRequest`: its error. -/
  parseURL : String → Option GoError
  /-- The function `unicode.ToUpper`. -/
  upperRune : Char → Char
  /-- The base64 encoding applied by `SetBasicAuth`. -/
  base64 : String → String
  /-- The reply of the network to the request sent after `n` earlier ones. -/
  server : Nat → Reply
  /-- The headers that come with the reply to the request sent after `n`
  earlier ones (`res.Header`); `Send` never reads them. -/
  replyHeader : Nat → Header

/-- The external calls `Send` makes, in order. -/
inductive Event where
  | marshal
  | newRequest
  | roundTrip (n : Nat)
  | readAll
  deriving DecidableEq, Repr

/-- The function `strings.ToUpper`: ASCII strings are mapped bytewise, any
other string rune by rune through `unicode.ToUpper`. -/
def ToUpper (upperRune : Char → Char) (s : String) : String :=
  if s.data.all (fun c => c.toNat < 128) then ⟨s.data.map Char.toUpper⟩
  else ⟨s.data.map upperRune⟩

/-- The function `validMethod` of `net/http`. -/
def validMethod (method : String) : Bool :=
  !method.data.isEmpty && method.data.all isTokenChar

/-- The function `http.NewRequest`: an empty method stands for GET, the method
must be a token and the URL must parse. The error text omits the quoting of
the method. -/
def NewRequest (env : Env) (method url : String) (body : Option Bytes) :
    Except GoError Request :=
  let method := if method.data.isEmpty then "GET" else method
  if !validMethod method then
    .error (GoError.new ("net/http: invalid method " ++ method))
  else
    match env.parseURL url with
    | some err => .error err
    | none => .ok { Method := method, URL := url, Body := body, Header := [] }

/-- The method `Request.SetBasicAuth`: the credentials are joined by a colon
and base64-encoded by `encode`. -/
def Request.SetBasicAuth (encode : String → String) (req : Request)
    (username password : String) : Request :=
  let auth := username ++ ":" ++ password
  { req with Header := req.Header.Set "Authorization" ("Basic " ++ encode auth) }

/-- The redirect policy installed by `Send` (the `CheckRedirect` closure). -/
def CheckRedirect (config : Config) (_req : Request) (via : List Request) : Option GoError :=
  if (via.length : Int) > config.MaxRedirects then some errTooManyRedirects else none

/-- The redirect loop of `Client.Do`: before every request but the first the
policy is asked with the requests sent so far; a policy error and a network
error come back wrapped in a `*url.Error`. `fuel` bounds the iterations. -/
def clientDo (policy : Request → List Request → Option GoError) (server : Nat → Reply)
    (req : Request) : Nat → List Request → Except GoError (Int × Except GoError Bytes) × List Event
  | 0, _ => (.error (GoError.ext 0), [])
  | fuel + 1, reqs =>
    match (if reqs.isEmpty then none else policy req reqs) with
    | some err => (.error (GoError.wrapped err), [])
    | none =>
      match server reqs.length with
      | .fail err => (.error (GoError.wrapped err), [Event.roundTrip reqs.length])
      | .response status body => (.ok (status, body), [Event.roundTrip reqs.length])
      | .redirect =>
        let r := clientDo policy server req fuel (reqs ++ [req])
        (r.1, Event.roundTrip reqs.length :: r.2)

/-- The function `http.StatusText`. -/
def StatusText (code : Int) : String :=
  match code with
  | 100 => "Continue"
  | 101 => "Switching Protocols"
  | 102 => "Processing"
  | 103 => "Early Hints"
  | 200 => "OK"
  | 201 => "Created"
  | 202 => "Accepted"
  | 203 => "Non-Authoritative Information"
  | 204 => "No Content"
  | 205 => "Reset Content"
  | 206 => "Partial Content"
  | 207 => "Multi-Status"
  | 208 => "Already Reported"
  | 226 => "IM Used"
  | 300 => "Multiple Choices"
  | 301 => "Moved Permanently"
  | 302 => "Found"
  | 303 => "See Other"
  | 304 => "Not Modified"
  | 305 => "Use Proxy"
  | 307 => "Temporary Redirect"
  | 308 => "Permanent Redirect"
  | 400 => "Bad Request"
  | 401 => "Unauthorized"
  | 402 => "Payment Required"
  | 403 => "Forbidden"
  | 404 => "Not Found"
  | 405 => "Method Not Allowed"
  | 406 => "Not Acceptable"
  | 407 => "Proxy Authentication Required"
  | 408 => "Request Timeout"
  | 409 => "Conflict"
  | 410 => "Gone"
  | 411 => "Length Required"
  | 412 => "Precondition Failed"
  | 413 => "Request Entity Too Large"
  | 414 => "Request URI Too Long"
  | 415 => "Unsupported Media Type"
  | 416 => "Requested Range Not Satisfiable"
  | 417 => "Expectation Failed"
  | 418 => "I'm a teapot"
  | 421 => "Misdirected Request"
  | 422 => "Unprocessable Entity"
  | 423 => "Locked"
  | 424 => "Failed Dependency"
  | 425 => "Too Early"
  | 426 => "Upgrade Required"
  | 428 => "Precondition Required"
  | 429 => "Too Many Requests"
  | 431 => "Request Header Fields Too Large"
  | 451 => "Unavailable For Legal Reasons"
  | 500 => "Internal Server Error"
  | 501 => "Not Implemented"
  | 502 => "Bad Gateway"
  | 503 => "Service Unavailable"
  | 504 => "Gateway Timeout"
  | 505 => "HTTP Version Not Supported"
  | 506 => "Variant Also Negotiates"
  | 507 => "Insufficient Storage"
  | 508 => "Loop Detected"
  | 510 => "Not Extended"
  | 511 => "Network Authentication Required"
  | _ => ""

/-! ## `Send` -/

structure Response where
  Data : Bytes
  Status : Int
  StatusText : String
  Headers : GoMap String
  Config : Config
  Request : Request

/-- Lines 58 to 95 of `Send`: the body is serialised, the request is
constructed and its headers are set; the external calls made are logged. -/
def buildRequest (env : Env) (config : Config) : Except GoError Request × List Event :=
  let buf : Except GoError (Option Bytes) :=
    match config.Body with
    | some body =>
      match env.jsonMarshal body with
      | .error err => .error err
      | .ok b => .ok (some b)
    | none => .ok none
  let log := if config.Body.isSome then [Event.marshal] else []
  match buf with
  | .error err => (.error err, log)
  | .ok buf =>
    match NewRequest env (ToUpper env.upperRune config.Method) config.URL buf with
    | .error err => (.error err, log ++ [Event.newRequest])
    | .ok req =>
      let req := if config.Body.isSome then
        { req with Header := req.Header.Set "Content-Type" config.ContentType } else req
      let req := if config.BasicAuth.isSome then
        req.SetBasicAuth env.base64 (config.BasicAuth.index "username")
          (config.BasicAuth.index "password") else req
      let req := if !IsStringEmpty config.BearerToken then
        { req with Header := req.Header.Set "Authorization" ("Bearer " ++ config.BearerToken) }
        else req
      let req := { req with Header := req.Header.Set "Accept" config.Accepts }
      let req := { req with Header := req.Header.Set "User-Agent" config.UserAgent }
      let req := match config.Headers with
        | some headers =>
          { req with Header := headers.foldl (fun h kv => Header.Set h kv.1 kv.2) req.Header }
        | none => req
      (.ok req, log ++ [Event.newRequest])

/-- What a call of `Send` leaves behind: the config it mutated, the two
returned values and the external calls it made. -/
structure SendResult where
  config : Config
  resp : Option Response
  err : Option GoError
  trace : List Event

/-- The function `Send`. The redirect loop of the client is run with a bound
that the redirect policy never lets it reach. -/
def Send (env : Env) (config : Config) : SendResult :=
  match config.validate with
  | (config, some err) => { config := config, resp := none, err := some err, trace := [] }
  | (config, none) =>
    match buildRequest env config with
    | (.error err, log) => { config := config, resp := none, err := some err, trace := log }
    | (.ok req, log) =>
      match clientDo (CheckRedirect config) env.server req (config.MaxRedirects.toNat + 2) [] with
      | (.error err, sent) =>
        { config := config, resp := none, err := some err, trace := log ++ sent }
      | (.ok (status, body), sent) =>
        match body with
        | .error err =>
          { config := config, resp := none, err := some err,
            trace := log ++ sent ++ [Event.readAll] }
        | .ok data =>
          { config := config,
            resp := some { Data := data, Status := status, StatusText := StatusText status,
                           Headers := none, Config := config, Request := req },
            err := none, trace := log ++ sent ++ [Event.readAll] }

/-! ## Closed forms and the spec's wording of the request construction -/

/-- The method `http.NewRequest` gives the request: GET for an empty one. -/
def requestMethod (env : Env) (config : Config) : String :=
  if (ToUpper env.upperRune config.Method).data.isEmpty then "GET"
  else ToUpper env.upperRune config.Method

/-- The headers of the request after lines 74 to 95 of `Send`, which start
from the empty header map of a fresh request. -/
def sentHeader (env : Env) (config : Config) : Header :=
  let h : Header := []
  let h := if config.Body.isSome then h.Set "Content-Type" config.ContentType else h
  let h := if config.BasicAuth.isSome then
    h.Set "Authorization" ("Basic " ++ env.base64
      (config.BasicAuth.index "username" ++ ":" ++ config.BasicAuth.index "password"))
    else h
  let h := if !IsStringEmpty config.BearerToken then
    h.Set "Authorization" ("Bearer " ++ config.BearerToken) else h
  let h := h.Set "Accept" config.Accepts
  let h := h.Set "User-Agent" config.UserAgent
  match config.Headers with
  | some headers => headers.foldl (fun h kv => Header.Set h kv.1 kv.2) h
  | none => h

/-- The headers of the request in the spec's wording of steps 4 to 9 of
`send`: basic credentials if `basicAuth` is set, else the bearer header if
`bearerToken` is non-empty. -/
def sentHeaderElseIf (env : Env) (config : Config) : Header :=
  let h : Header := []
  let h := if config.Body.isSome then h.Set "Content-Type" config.ContentType else h
  let h := if config.BasicAuth.isSome then
    h.Set "Authorization" ("Basic " ++ env.base64
      (config.BasicAuth.index "username" ++ ":" ++ config.BasicAuth.index "password"))
    else if !IsStringEmpty config.BearerToken then
      h.Set "Authorization" ("Bearer " ++ config.BearerToken)
    else h
  let h := h.Set "Accept" config.Accepts
  let h := h.Set "User-Agent" config.UserAgent
  match config.Headers with
  | some headers => headers.foldl (fun h kv => Header.Set h kv.1 kv.2) h
  | none => h

/-- The headers `Send` sets itself (lines 74 to 88), before the caller headers
are applied. -/
def ownHeader (env : Env) (config : Config) : Header :=
  let h : Header := []
  let h := if config.Body.isSome then h.Set "Content-Type" config.ContentType else h
  let h := if config.BasicAuth.isSome then
    h.Set "Authorization" ("Basic " ++ env.base64
      (config.BasicAuth.index "username" ++ ":" ++ config.BasicAuth.index "password"))
    else h
  let h := if !IsStringEmpty config.BearerToken then
    h.Set "Authorization" ("Bearer " ++ config.BearerToken) else h
  let h := h.Set "Accept" config.Accepts
  h.Set "User-Agent" config.UserAgent

/-! ## Sample inputs -/

/-- A network that answers the first request with status 404 and two bytes. -/
def notFoundServer (_n : Nat) : Reply :=
  Reply.response 404 (.ok [110, 111])

/-- The config of the end-to-end scenario. -/
def scenarioConfig : Config :=
  { Config.zero with Method := "get", URL := "http://example.test/x" }

/-- The request `Send` builds for `scenarioConfig`. -/
def scenarioRequest : Request :=
  { Method := "GET", URL := "http://example.test/x", Body := none,
    Header := [("User-Agent", ["gozzle-client-v1.0"]), ("Accept", ["application/json"])] }

/-- The config of the end-to-end scenario with its method left unset. -/
def emptyMethodConfig : Config :=
  { Config.zero with URL := "http://example.test/x" }

/-- A config with a bearer token. -/
def bearerConfig : Config :=
  { Config.zero with Method := "get", BearerToken := "t0k" }

/-- The request `Send` builds for `bearerConfig`. -/
def bearerRequest : Request :=
  { Method := "GET", URL := "", Body := none,
    Header := [("User-Agent", ["gozzle-client-v1.0"]), ("Accept", ["application/json"]),
               ("Authorization", ["Bearer t0k"])] }

/-- A config with a body and the method "get" in lower case. -/
def lowerGetBodyConfig : Config :=
  { Config.zero with Method := "get", Body := some [("a", Any.int 1)] }

/-- A config with a body that leaves the content type unset. -/
def unsetTypeConfig : Config :=
  { Config.zero with Method := "post", Body := some [] }

/-- A config with a bearer token and a caller header named "authorization" in
lower case. -/
def bearerLowerAuthConfig : Config :=
  { Config.zero with
    Method := "get", BearerToken := "t0k", Headers := some [("authorization", "mine")] }

/-- A config with a bearer token and a caller header of another name. -/
def bearerTraceConfig : Config :=
  { Config.zero with
    Method := "get", BearerToken := "t0k", Headers := some [("X-Trace", "1")] }

/-- A config with a body that leaves the content type unset and has a caller
header named "content-type" in lower case. -/
def unsetTypeLowerConfig : Config :=
  { Config.zero with
    Method := "post", Body := some [], Headers := some [("content-type", "a/b")] }

/-- A config with a body that leaves the content type unset and has a caller
header of another name. -/
def unsetTypeTraceConfig : Config :=
  { Config.zero with Method := "post", Body := some [], Headers := some [("X-Trace", "1")] }

/-- A config that sets every field `validate` may touch. -/
def fullConfig : Config :=
  { Config.zero with
    Method := "post", BaseURL := "/api/", UserAgent := "agent", Timeout := -3,
    MaxRedirects := -1, ContentType := "text/plain", Retries := 2 }


/-- A network that answers the first `n` requests with a redirect and the next
one with status 200 and an empty body. -/
def redirectChain (n : Nat) (k : Nat) : Reply :=
  if k < n then Reply.redirect else Reply.response 200 (.ok [])

/-- A sample environment: serialisation and URL parsing succeed. -/
def sampleEnv (server : Nat → Reply) : Env :=
  { jsonMarshal := fun _ => .ok [123, 125], parseURL := fun _ => none,
    upperRune := Char.toUpper, base64 := id, server := server,
    replyHeader := fun _ => [("Content-Type", ["text/html"])] }

/-! ## Closed forms of the two outcomes of `validate` -/

/-- The config as `validate` leaves it when it returns an error: only the
defaults of the first four statements have been applied. -/
def Config.defaulted (c : Config) : Config :=
  { c with
    AcceptJSON := true
    UserAgent := if c.UserAgent = "" then defaultUserAgent else c.UserAgent
    Timeout := if c.Timeout = 0 then defaultTimeout else c.Timeout
    MaxRedirects := if c.MaxRedirects = 0 then defaultMaxRedirects else c.MaxRedirects }

/-- The config as `validate` leaves it when it returns no error. -/
def Config.normalised (c : Config) : Config :=
  { c.defaulted with
    Accepts := "application/json"
    ContentType :=
      if c.AsURLEncoded then "application/x-www-form-url-encoded"
      else if c.AsMultipart then "multipart/form-data"
      else if c.ContentType = "" then "" else defaultContentType
    BaseURL := if c.BaseURL = "" then "" else Trim c.BaseURL '/' }

/-- A config that asks for bearer and for basic authentication. -/
def conflictConfig : Config :=
  { Config.zero with BearerToken := "t", BasicAuth := some [] }

/-- A GET config with a body that also asks for both kinds of authentication. -/
def conflictGetConfig : Config :=
  { Config.zero with Method := "GET", Body := some [], BearerToken := "t", BasicAuth := some [] }

/-- A GET config with a body. -/
def getBodyConfig : Config :=
  { Config.zero with Method := "GET", Body := some [] }

/-- A config with both encoding flags set. -/
def bothFlagsConfig : Config :=
  { Config.zero with AsMultipart := true, AsURLEncoded := true }

/-- A URL-encoded config with a content type of the caller. -/
def urlEncodedConfig : Config :=
  { Config.zero with AsURLEncoded := true, ContentType := "text/plain" }

/-- A config with a content type of the caller and no encoding flag. -/
def textConfig : Config :=
  { Config.zero with Method := "post", ContentType := "text/plain" }

/-- A config that leaves the defaulted fields unset and fails validation. -/
def unsetConflictConfig : Config :=
  { Config.zero with BearerToken := "t", BasicAuth := some [("username", "u")] }

/-- A config with slashes around its base URL. -/
def slashConfig : Config :=
  { Config.zero with Method := "get", BaseURL := "//api/v1//" }

/-- The request `Send` builds for `slashConfig`. -/
def slashRequest : Request :=
  { Method := "GET", URL := "", Body := none,
    Header := [("User-Agent", ["gozzle-client-v1.0"]), ("Accept", ["application/json"])] }

/-- A config whose caller headers replace the accept header. -/
def acceptConfig : Config :=
  { Config.zero with Method := "get", Headers := some [("Accept", "text/plain")] }

/-- The request `Send` builds for `acceptConfig`. -/
def acceptRequest : Request :=
  { Method := "GET", URL := "", Body := none,
    Header := [("Accept", ["text/plain"]), ("User-Agent", ["gozzle-client-v1.0"])] }

/-- A config with two caller headers whose names differ in case only, visited
in this order by `range`. -/
def caseClashConfig : Config :=
  { Config.zero with
    Method := "get", Headers := some [("accept", "text/plain"), ("Accept", "text/html")] }

/-- The config `caseClashConfig` with its headers visited in the other order. -/
def caseClashConfigSwapped : Config :=
  { Config.zero with
    Method := "get", Headers := some [("Accept", "text/html"), ("accept", "text/plain")] }

/-! ## Basic facts -/

theorem IsStringEmpty_iff (s : String) : IsStringEmpty s = true ↔ s = "" := by
  cases s with
  | mk d =>
    cases d with
    | nil => simp [IsStringEmpty]
    | cons a t =>
      simp only [IsStringEmpty, List.isEmpty_cons, Bool.false_eq_true, false_iff]
      intro h
      have := congrArg String.data h
      simp at this

theorem IsStringEmpty_eq_false_iff (s : String) : IsStringEmpty s = false ↔ s ≠ "" := by
  rw [Ne, ← IsStringEmpty_iff]; simp

theorem IsStringEmpty_eq_decide (s : String) : IsStringEmpty s = decide (s = "") := by
  by_cases h : s = ""
  · subst h; rfl
  · simp [h, (IsStringEmpty_eq_false_iff s).2 h]

/-- A closed form of `validate`. -/
theorem validate_eq (c : Config) :
    c.validate =
      if c.BearerToken ≠ "" ∧ c.BasicAuth.isSome = true then (c.defaulted, some errConflictingAuth)
      else if c.Body.isSome = true ∧ c.Method = "GET" then (c.defaulted, some errBodyNotAllowed)
      else (c.normalised, none) := by
  rcases c with ⟨url, method, baseURL, basicAuth, bearer, headers, timeout, body, params, ua,
    acceptJSON, accepts, asMultipart, asURLEncoded, contentType, scan, maxRedirects, retries,
    retrySleep⟩
  simp only [Config.validate, Config.defaulted, Config.normalised, MethodGet, IsStringEmpty_eq_decide]
  by_cases h4 : bearer ≠ "" ∧ basicAuth.isSome = true
  · simp [h4]
  · by_cases h5 : body.isSome = true ∧ method = "GET"
    · simp [h4, h5]
    · simp only [h4, h5]
      cases asMultipart <;> cases asURLEncoded <;> by_cases h6 : contentType = "" <;>
        by_cases h7 : baseURL = "" <;> simp [h4, h5, h6, h7]

/-- When `validate` returns no error, neither check fired and the config is
the normalised one. -/
theorem validate_ok (c : Config) (h : c.validate.2 = none) :
    c.validate.1 = c.normalised ∧ ¬ (c.BearerToken ≠ "" ∧ c.BasicAuth.isSome = true) ∧
      ¬ (c.Body.isSome = true ∧ c.Method = "GET") := by
  rw [validate_eq] at h ⊢
  split_ifs at h ⊢ with h1 h2
  exact ⟨rfl, h1, h2⟩

/-- Whatever `validate` returns, the first four statements have run. -/
theorem validate_fst_defaulted (c : Config) :
    c.validate.1 = c.defaulted ∨ c.validate.1 = c.normalised := by
  rw [validate_eq]
  split_ifs <;> simp

theorem isSome_iff_ne_none {α : Type} (o : Option α) : o.isSome = true ↔ o ≠ none := by
  cases o <;> simp

/-! ## Validation errors -/

/-- C1: a config whose bearer token is non-empty and whose basic-auth map is
non-nil makes `validate` return the conflicting-auth error, and `Send`
returns a nil response with that error without any external call (no
serialisation, no request construction, no round trip). -/
theorem validate_conflicting_auth (env : Env) (c : Config)
    (hb : c.BearerToken ≠ "") (ha : c.BasicAuth ≠ none) :
    c.validate.2 = some (GoError.new "cannot authenticate with bearer and basic auth") ∧
      (Send env c).resp = none ∧
      (Send env c).err = some (GoError.new "cannot authenticate with bearer and basic auth") ∧
      (Send env c).trace = [] := by
  have h : c.validate = (c.defaulted, some errConflictingAuth) := by
    rw [validate_eq, if_pos ⟨hb, (isSome_iff_ne_none _).2 ha⟩]
  simp [Send, h, errConflictingAuth, errorsNew]

theorem validate_conflicting_auth_witness :
    conflictConfig.BearerToken ≠ "" ∧ conflictConfig.BasicAuth ≠ none ∧
      conflictConfig.validate.2 =
        some (GoError.new "cannot authenticate with bearer and basic auth") ∧
      (Send (sampleEnv (redirectChain 0)) conflictConfig).resp = none ∧
      (Send (sampleEnv (redirectChain 0)) conflictConfig).err =
        some (GoError.new "cannot authenticate with bearer and basic auth") ∧
      (Send (sampleEnv (redirectChain 0)) conflictConfig).trace = [] :=
  ⟨by decide, by decide,
    validate_conflicting_auth (sampleEnv (redirectChain 0)) conflictConfig (by decide) (by decide)⟩

/-- C2, as stated, fails: a GET config with a body that also carries a bearer
token and a basic-auth map is rejected with the conflicting-auth error, not
with the body-not-allowed error. -/
theorem validate_get_body_counterexample :
    conflictGetConfig.Method = "GET" ∧ conflictGetConfig.Body ≠ none ∧
      conflictGetConfig.validate.2 =
        some (GoError.new "cannot authenticate with bearer and basic auth") ∧
      conflictGetConfig.validate.2 ≠ some (GoError.new "body not allowed for 'GET' method") :=
  ⟨by decide, by simp [conflictGetConfig], by decide, by decide⟩

/-- C2, amended: a config with method "GET" and a non-nil body always fails
validation; the error is the body-not-allowed error unless the bearer token is
non-empty and the basic-auth map non-nil, in which case it is the
conflicting-auth error of the earlier check. -/
theorem validate_get_body (c : Config) (hm : c.Method = "GET") (hb : c.Body ≠ none) :
    c.validate.2 ≠ none ∧
      (¬ (c.BearerToken ≠ "" ∧ c.BasicAuth ≠ none) →
        c.validate.2 = some (GoError.new "body not allowed for 'GET' method")) ∧
      (c.BearerToken ≠ "" ∧ c.BasicAuth ≠ none →
        c.validate.2 = some (GoError.new "cannot authenticate with bearer and basic auth")) := by
  have hb2 : c.Body.isSome = true := (isSome_iff_ne_none _).2 hb
  have key := validate_eq c
  by_cases h1 : c.BearerToken ≠ "" ∧ c.BasicAuth.isSome = true
  · rw [if_pos h1] at key
    rw [key]
    exact ⟨by simp, fun h => absurd ⟨h1.1, (isSome_iff_ne_none _).1 h1.2⟩ h, fun _ => rfl⟩
  · rw [if_neg h1, if_pos ⟨hb2, hm⟩] at key
    rw [key]
    exact ⟨by simp, fun _ => rfl, fun h => absurd ⟨h.1, (isSome_iff_ne_none _).2 h.2⟩ h1⟩

theorem validate_get_body_witness :
    getBodyConfig.Method = "GET" ∧ getBodyConfig.Body ≠ none ∧
      getBodyConfig.validate.2 = some (GoError.new "body not allowed for 'GET' method") :=
  ⟨by decide, by simp [getBodyConfig],
    (validate_get_body getBodyConfig (by decide) (by simp [getBodyConfig])).2.1 (by decide)⟩

/-! ## Content type -/

/-- C3, as stated, fails: with both flags set the URL-encoded assignment runs
last, so the content type is not "multipart/form-data". -/
theorem validate_both_flags_counterexample :
    bothFlagsConfig.AsMultipart = true ∧ bothFlagsConfig.AsURLEncoded = true ∧
      bothFlagsConfig.validate.2 = none ∧
      bothFlagsConfig.validate.1.ContentType = "application/x-www-form-url-encoded" ∧
      bothFlagsConfig.validate.1.ContentType ≠ "multipart/form-data" :=
  ⟨by decide, by decide, by decide, by decide, by decide⟩

/-- C3, amended: when both `AsMultipart` and `AsURLEncoded` are set and
`validate` succeeds, the content type is "application/x-www-form-url-encoded"
(the URL-encoded check comes after the multipart check, so it wins). -/
theorem validate_both_flags (c : Config) (_hm : c.AsMultipart = true)
    (hu : c.AsURLEncoded = true) (hv : c.validate.2 = none) :
    c.validate.1.ContentType = "application/x-www-form-url-encoded" := by
  rw [(validate_ok c hv).1]
  simp [Config.normalised, hu]

theorem validate_both_flags_witness :
    bothFlagsConfig.AsMultipart = true ∧ bothFlagsConfig.AsURLEncoded = true ∧
      bothFlagsConfig.validate.2 = none ∧
      bothFlagsConfig.validate.1.ContentType = "application/x-www-form-url-encoded" :=
  ⟨by decide, by decide, by decide,
    validate_both_flags bothFlagsConfig (by decide) (by decide) (by decide)⟩

/-- C4: with `AsURLEncoded` set and `AsMultipart` unset, a successful
`validate` leaves the content type "application/x-www-form-url-encoded",
whatever the caller had put there. -/
theorem validate_url_encoded (c : Config) (hu : c.AsURLEncoded = true)
    (_hm : c.AsMultipart = false) (hv : c.validate.2 = none) :
    c.validate.1.ContentType = "application/x-www-form-url-encoded" := by
  rw [(validate_ok c hv).1]
  simp [Config.normalised, hu]

theorem validate_url_encoded_witness :
    urlEncodedConfig.AsURLEncoded = true ∧ urlEncodedConfig.AsMultipart = false ∧
      urlEncodedConfig.validate.2 = none ∧
      urlEncodedConfig.validate.1.ContentType = "application/x-www-form-url-encoded" :=
  ⟨by decide, by decide, by decide,
    validate_url_encoded urlEncodedConfig (by decide) (by decide) (by decide)⟩

/-- C5: a non-empty content type of the caller, with both encoding flags
unset, is replaced by the default "application/json; charset=utf-8" by a
successful `validate`. -/
theorem validate_content_type_default (c : Config) (hc : c.ContentType ≠ "")
    (hm : c.AsMultipart = false) (hu : c.AsURLEncoded = false) (hv : c.validate.2 = none) :
    c.validate.1.ContentType = "application/json; charset=utf-8" := by
  rw [(validate_ok c hv).1]
  simp [Config.normalised, hu, hm, hc, defaultContentType]

theorem validate_content_type_default_witness :
    textConfig.ContentType ≠ "" ∧ textConfig.AsMultipart = false ∧
      textConfig.AsURLEncoded = false ∧ textConfig.validate.2 = none ∧
      textConfig.validate.1.ContentType = "application/json; charset=utf-8" :=
  ⟨by decide, by decide, by decide, by decide,
    validate_content_type_default textConfig (by decide) (by decide) (by decide) (by decide)⟩

/-! ## Defaults and the normalisation invariant -/

/-- C7: after a successful `validate` the timeout and the redirect cap are
non-zero, the user agent is non-empty, `AcceptJSON` is true, `Accepts` is
"application/json", and the bearer token and the basic-auth map are not both
set. -/
theorem validate_invariant (c : Config) (hv : c.validate.2 = none) :
    c.validate.1.Timeout ≠ 0 ∧ c.validate.1.MaxRedirects ≠ 0 ∧ c.validate.1.UserAgent ≠ "" ∧
      c.validate.1.AcceptJSON = true ∧ c.validate.1.Accepts = "application/json" ∧
      ¬ (c.validate.1.BearerToken ≠ "" ∧ c.validate.1.BasicAuth ≠ none) := by
  obtain ⟨he, hauth, _⟩ := validate_ok c hv
  rw [he]
  refine ⟨?_, ?_, ?_, rfl, rfl, ?_⟩
  · show (if c.Timeout = 0 then defaultTimeout else c.Timeout) ≠ 0
    split_ifs with h
    · decide
    · exact h
  · show (if c.MaxRedirects = 0 then defaultMaxRedirects else c.MaxRedirects) ≠ 0
    split_ifs with h
    · decide
    · exact h
  · show (if c.UserAgent = "" then defaultUserAgent else c.UserAgent) ≠ ""
    split_ifs with h
    · decide
    · exact h
  · intro h
    exact hauth ⟨h.1, (isSome_iff_ne_none _).2 h.2⟩

theorem validate_invariant_witness :
    slashConfig.validate.2 = none ∧
      slashConfig.validate.1.Timeout ≠ 0 ∧ slashConfig.validate.1.MaxRedirects ≠ 0 ∧
      slashConfig.validate.1.UserAgent ≠ "" ∧ slashConfig.validate.1.AcceptJSON = true ∧
      slashConfig.validate.1.Accepts = "application/json" ∧
      ¬ (slashConfig.validate.1.BearerToken ≠ "" ∧ slashConfig.validate.1.BasicAuth ≠ none) :=
  ⟨by decide, validate_invariant slashConfig (by decide)⟩

/-- C8: whether or not `validate` returns an error, an empty user agent has
become "gozzle-client-v1.0", a zero timeout has become 5 and a zero redirect
cap has become 5. -/
theorem validate_fills_defaults (c : Config) :
    (c.UserAgent = "" → c.validate.1.UserAgent = "gozzle-client-v1.0") ∧
      (c.Timeout = 0 → c.validate.1.Timeout = 5) ∧
      (c.MaxRedirects = 0 → c.validate.1.MaxRedirects = 5) := by
  rcases validate_fst_defaulted c with h | h <;> rw [h] <;>
    exact ⟨fun hz => if_pos hz, fun hz => if_pos hz, fun hz => if_pos hz⟩

theorem validate_fills_defaults_witness :
    unsetConflictConfig.validate.2 ≠ none ∧
      unsetConflictConfig.validate.1.UserAgent = "gozzle-client-v1.0" ∧
      unsetConflictConfig.validate.1.Timeout = 5 ∧
      unsetConflictConfig.validate.1.MaxRedirects = 5 :=
  ⟨by decide, (validate_fills_defaults unsetConflictConfig).1 rfl,
    (validate_fills_defaults unsetConflictConfig).2.1 rfl,
    (validate_fills_defaults unsetConflictConfig).2.2 rfl⟩

/-! ## Trimming of the base URL -/

/-- Dropping the leading copies of `c` splits a list into a run of `c` and a
rest that does not start with `c`. -/
theorem trimLeftByte_split (c : Char) (l : List Char) :
    ∃ a, l = List.replicate a c ++ trimLeftByte l c ∧ (trimLeftByte l c).head? ≠ some c := by
  induction l with
  | nil => exact ⟨0, rfl, by simp [trimLeftByte]⟩
  | cons x t ih =>
    obtain ⟨a, ha, hh⟩ := ih
    by_cases hx : x = c
    · refine ⟨a + 1, ?_, ?_⟩
      · have : trimLeftByte (x :: t) c = trimLeftByte t c := by
          simp [trimLeftByte, List.dropWhile_cons, hx]
        rw [this, List.replicate_succ, List.cons_append, ← ha, hx]
      · have : trimLeftByte (x :: t) c = trimLeftByte t c := by
          simp [trimLeftByte, List.dropWhile_cons, hx]
        rw [this]
        exact hh
    · have : trimLeftByte (x :: t) c = x :: t := by
        simp [trimLeftByte, List.dropWhile_cons, hx]
      refine ⟨0, by simp [this], ?_⟩
      rw [this]
      simpa using hx

/-- Dropping the trailing copies of `c` splits a list into a rest that does
not end with `c` and a run of `c`. -/
theorem trimRightByte_split (c : Char) (l : List Char) :
    ∃ b, l = trimRightByte l c ++ List.replicate b c ∧ (trimRightByte l c).getLast? ≠ some c := by
  obtain ⟨b, hb, hh⟩ := trimLeftByte_split c l.reverse
  refine ⟨b, ?_, ?_⟩
  · have := congrArg List.reverse hb
    simpa [trimRightByte, trimLeftByte] using this
  · simpa [trimRightByte, trimLeftByte, List.getLast?_reverse] using hh

/-- The trimmed string: the original is a run of `c`, the result, and a run
of `c`, and the result neither starts nor ends with `c`. -/
theorem Trim_split (s : String) (c : Char) :
    ∃ a b, s.data = List.replicate a c ++ (Trim s c).data ++ List.replicate b c ∧
      (Trim s c).data.head? ≠ some c ∧ (Trim s c).data.getLast? ≠ some c := by
  obtain ⟨b, hb, hlast⟩ := trimRightByte_split c s.data
  obtain ⟨a, ha, hhead⟩ := trimLeftByte_split c (trimRightByte s.data c)
  refine ⟨a, b, ?_, hhead, ?_⟩
  · show s.data = List.replicate a c ++ trimLeftByte (trimRightByte s.data c) c
      ++ List.replicate b c
    rw [← ha, ← hb]
  · show (trimLeftByte (trimRightByte s.data c) c).getLast? ≠ some c
    rcases hnil : trimLeftByte (trimRightByte s.data c) c with _ | ⟨x, t⟩
    · simp
    · rw [ha, hnil, List.getLast?_append_of_ne_nil _ (by simp)] at hlast
      exact hlast

/-- C10: after a successful `validate` the base URL is the original one with
its leading and its trailing run of '/' removed and the characters in between
untouched: the original is a run of '/', the result, and a run of '/'; the
result neither starts nor ends with '/'; an empty base URL stays empty. -/
theorem validate_base_url (c : Config) (hv : c.validate.2 = none) :
    (∃ a b, c.BaseURL.data =
        List.replicate a '/' ++ c.validate.1.BaseURL.data ++ List.replicate b '/') ∧
      c.validate.1.BaseURL.data.head? ≠ some '/' ∧
      c.validate.1.BaseURL.data.getLast? ≠ some '/' ∧
      (c.BaseURL = "" → c.validate.1.BaseURL = "") := by
  rw [(validate_ok c hv).1]
  show (∃ a b, c.BaseURL.data = List.replicate a '/' ++
      (if c.BaseURL = "" then "" else Trim c.BaseURL '/').data ++ List.replicate b '/') ∧
    (if c.BaseURL = "" then "" else Trim c.BaseURL '/').data.head? ≠ some '/' ∧
    (if c.BaseURL = "" then "" else Trim c.BaseURL '/').data.getLast? ≠ some '/' ∧
    (c.BaseURL = "" → (if c.BaseURL = "" then "" else Trim c.BaseURL '/') = "")
  by_cases h : c.BaseURL = ""
  · rw [if_pos h, h]
    exact ⟨⟨0, 0, rfl⟩, by decide, by decide, fun _ => rfl⟩
  · rw [if_neg h]
    obtain ⟨a, b, hsplit, hhead, hlast⟩ := Trim_split c.BaseURL '/'
    exact ⟨⟨a, b, hsplit⟩, hhead, hlast, fun h0 => absurd h0 h⟩

theorem validate_base_url_witness :
    slashConfig.validate.2 = none ∧ slashConfig.validate.1.BaseURL = "api/v1" ∧
      (∃ a b, slashConfig.BaseURL.data =
        List.replicate a '/' ++ slashConfig.validate.1.BaseURL.data ++ List.replicate b '/') ∧
      slashConfig.validate.1.BaseURL.data.head? ≠ some '/' ∧
      slashConfig.validate.1.BaseURL.data.getLast? ≠ some '/' ∧
      (slashConfig.BaseURL = "" → slashConfig.validate.1.BaseURL = "") :=
  ⟨by decide, by decide, validate_base_url slashConfig (by decide)⟩

/-! ## The redirect cap -/

theorem CheckRedirect_eq_none_iff (config : Config) (req : Request) (via : List Request) :
    CheckRedirect config req via = none ↔ (via.length : Int) ≤ config.MaxRedirects := by
  unfold CheckRedirect
  split_ifs with h
  · simp only [reduceCtorEq, false_iff, not_le]
    exact h
  · simp only [true_iff]
    exact not_lt.1 h

theorem CheckRedirect_eq_some_iff (config : Config) (req : Request) (via : List Request) :
    CheckRedirect config req via = some errTooManyRedirects ↔
      (via.length : Int) > config.MaxRedirects := by
  unfold CheckRedirect
  split_ifs with h
  · simp only [true_iff]
    exact h
  · simp only [reduceCtorEq, false_iff]
    exact h

/-- A network that redirects every request up to the cap makes the client fail
with the wrapped policy error, given fuel for the remaining hops. -/
theorem clientDo_too_many (config : Config) (server : Nat → Reply) (req : Request) (m : Nat)
    (hm : config.MaxRedirects = (m : Int)) (hs : ∀ k, k ≤ m → server k = Reply.redirect) :
    ∀ (fuel : Nat) (reqs : List Request), reqs.length ≤ m + 1 → m + 1 - reqs.length < fuel →
      (clientDo (CheckRedirect config) server req fuel reqs).1 =
        .error (GoError.wrapped errTooManyRedirects) := by
  intro fuel
  induction fuel with
  | zero => intro reqs _ h; omega
  | succ fuel ih =>
    intro reqs hlen hfuel
    unfold clientDo
    by_cases hcap : reqs.length = m + 1
    · have hne : reqs.isEmpty = false := by
        cases reqs with
        | nil => simp at hcap
        | cons a t => rfl
      have hp : CheckRedirect config req reqs = some errTooManyRedirects := by
        rw [CheckRedirect_eq_some_iff, hm, hcap]
        push_cast
        omega
      simp [hne, hp]
    · have hle : reqs.length ≤ m := by omega
      have hp : CheckRedirect config req reqs = none := by
        rw [CheckRedirect_eq_none_iff, hm]
        exact_mod_cast hle
      have hnone : (if reqs.isEmpty = true then none else CheckRedirect config req reqs)
          = none := by
        split_ifs
        · rfl
        · exact hp
      have hrec := ih (reqs ++ [req]) (by simp; omega) (by simp; omega)
      simp [hnone, hs reqs.length hle, hrec]

/-- A network that redirects the first `n` requests, with `n` within the cap,
and then answers, makes the client return that answer. -/
theorem clientDo_chain (config : Config) (server : Nat → Reply) (req : Request) (n : Nat)
    (status : Int) (body : Except GoError Bytes)
    (hn : (n : Int) ≤ config.MaxRedirects) (hs : ∀ k, k < n → server k = Reply.redirect)
    (hfinal : server n = Reply.response status body) :
    ∀ (fuel : Nat) (reqs : List Request), reqs.length ≤ n → n - reqs.length < fuel →
      (clientDo (CheckRedirect config) server req fuel reqs).1 = .ok (status, body) := by
  intro fuel
  induction fuel with
  | zero => intro reqs _ h; omega
  | succ fuel ih =>
    intro reqs hlen hfuel
    unfold clientDo
    have hp : CheckRedirect config req reqs = none := by
      rw [CheckRedirect_eq_none_iff]
      have : (reqs.length : Int) ≤ (n : Int) := by exact_mod_cast hlen
      omega
    have hnone : (if reqs.isEmpty = true then none else CheckRedirect config req reqs)
        = none := by
      split_ifs
      · rfl
      · exact hp
    by_cases hlast : reqs.length = n
    · simp [hnone, hlast, hfinal]
    · have hrec := ih (reqs ++ [req]) (by simp; omega) (by simp; omega)
      simp [hnone, hs reqs.length (by omega), hrec]

/-- The bound on the redirect loop is not observable: once the fuel exceeds
the hops the policy can still accept, more fuel gives the same result. -/
theorem clientDo_fuel_irrelevant (config : Config) (server : Nat → Reply) (req : Request)
    (extra : Nat) :
    ∀ (fuel : Nat) (reqs : List Request),
      config.MaxRedirects.toNat + 1 - reqs.length < fuel →
      clientDo (CheckRedirect config) server req (fuel + extra) reqs =
        clientDo (CheckRedirect config) server req fuel reqs := by
  intro fuel
  induction fuel with
  | zero => intro reqs h; omega
  | succ fuel ih =>
    intro reqs hfuel
    rw [show fuel + 1 + extra = (fuel + extra) + 1 by omega]
    unfold clientDo
    by_cases hrej : (if reqs.isEmpty = true then none else CheckRedirect config req reqs) = none
    · rw [hrej]
      cases hsrv : server reqs.length with
      | fail err => rfl
      | response status body => rfl
      | redirect =>
        have hlen : reqs.length ≤ config.MaxRedirects.toNat := by
          by_cases hemp : reqs.isEmpty = true
          · have : reqs = [] := List.isEmpty_iff.1 hemp
            simp [this]
          · rw [if_neg hemp, CheckRedirect_eq_none_iff] at hrej
            omega
        simp only [ih (reqs ++ [req]) (by simp; omega)]
    · cases hpol : (if reqs.isEmpty = true then none else CheckRedirect config req reqs) with
      | none => exact absurd hpol hrej
      | some err => rfl

/-- When validation succeeds, the request is built and the client fails, `Send`
returns a nil response and the error of the client. -/
theorem Send_of_clientDo_error (env : Env) (c : Config) (req : Request) (err : GoError)
    (hv : c.validate.2 = none) (hb : (buildRequest env c.validate.1).1 = .ok req)
    (hd : (clientDo (CheckRedirect c.validate.1) env.server req
      (c.validate.1.MaxRedirects.toNat + 2) []).1 = .error err) :
    (Send env c).resp = none ∧ (Send env c).err = some err := by
  rcases hcv : c.validate with ⟨c1, e⟩
  rw [hcv] at hv hb hd
  simp only at hv hb hd
  subst hv
  rcases hbr : buildRequest env c1 with ⟨r, log⟩
  rw [hbr] at hb
  simp only at hb
  subst hb
  rcases hcd : clientDo (CheckRedirect c1) env.server req (c1.MaxRedirects.toNat + 2) []
    with ⟨res, sent⟩
  rw [hcd] at hd
  simp only at hd
  subst hd
  simp [Send, hcv, hbr, hcd]

/-- When validation succeeds, the request is built, the client returns a
response and its body is read, `Send` returns the response envelope and a nil
error. -/
theorem Send_of_clientDo_ok (env : Env) (c : Config) (req : Request) (status : Int)
    (data : Bytes) (hv : c.validate.2 = none)
    (hb : (buildRequest env c.validate.1).1 = .ok req)
    (hd : (clientDo (CheckRedirect c.validate.1) env.server req
      (c.validate.1.MaxRedirects.toNat + 2) []).1 = .ok (status, .ok data)) :
    (Send env c).err = none ∧
      (Send env c).resp = some { Data := data, Status := status, StatusText := StatusText status,
                                 Headers := none, Config := c.validate.1, Request := req } := by
  rcases hcv : c.validate with ⟨c1, e⟩
  rw [hcv] at hv hb hd
  simp only at hv hb hd
  subst hv
  rcases hbr : buildRequest env c1 with ⟨r, log⟩
  rw [hbr] at hb
  simp only at hb
  subst hb
  rcases hcd : clientDo (CheckRedirect c1) env.server req (c1.MaxRedirects.toNat + 2) []
    with ⟨res, sent⟩
  rw [hcd] at hd
  simp only at hd
  subst hd
  simp [Send, hcv, hbr, hcd]

/-- C9: the policy installed by `Send` rejects a redirect exactly when
`len(via)` exceeds `MaxRedirects`. For a config with `MaxRedirects = 0` that
passes validation and whose request can be built, the cap is 5: the policy
accepts the k-th redirect (`len(via) = k`) exactly for k up to 5; a network
that redirects the first six requests makes `Send` fail with the
too-many-redirects error (wrapped by the client in a `*url.Error`), and a
network that redirects at most five times and then answers makes `Send`
return that answer. -/
theorem send_redirect_cap (env : Env) (c : Config) (req : Request)
    (hz : c.MaxRedirects = 0) (hv : c.validate.2 = none)
    (hb : (buildRequest env c.validate.1).1 = .ok req) :
    (∀ (config : Config) (r : Request) (via : List Request),
        CheckRedirect config r via ≠ none ↔ (via.length : Int) > config.MaxRedirects) ∧
      c.validate.1.MaxRedirects = 5 ∧
      (∀ (r : Request) (via : List Request),
        (CheckRedirect c.validate.1 r via = some (GoError.new "too many redirects") ↔
          via.length > 5) ∧
        (CheckRedirect c.validate.1 r via = none ↔ via.length ≤ 5)) ∧
      ((∀ k, k < 6 → env.server k = Reply.redirect) →
        (Send env c).resp = none ∧
        (Send env c).err = some (GoError.wrapped (GoError.new "too many redirects"))) ∧
      (∀ (n : Nat) (status : Int) (data : Bytes), n ≤ 5 →
        (∀ k, k < n → env.server k = Reply.redirect) →
        env.server n = Reply.response status (.ok data) →
        (Send env c).err = none ∧
        ∃ resp, (Send env c).resp = some resp ∧ resp.Status = status ∧ resp.Data = data) := by
  have hmax : c.validate.1.MaxRedirects = 5 := by
    rw [(validate_ok c hv).1]
    show (if c.MaxRedirects = 0 then defaultMaxRedirects else c.MaxRedirects) = 5
    rw [if_pos hz]
    rfl
  refine ⟨?_, hmax, ?_, ?_, ?_⟩
  · intro config r via
    rw [Ne, CheckRedirect_eq_none_iff]
    exact not_le
  · intro r via
    constructor
    · have h := CheckRedirect_eq_some_iff c.validate.1 r via
      rw [hmax] at h
      rw [show GoError.new "too many redirects" = errTooManyRedirects from rfl, h]
      omega
    · rw [CheckRedirect_eq_none_iff, hmax]
      omega
  · intro hs
    have hd := clientDo_too_many c.validate.1 env.server req 5 (by rw [hmax]; rfl)
      (fun k hk => hs k (by omega)) (c.validate.1.MaxRedirects.toNat + 2) []
      (by simp) (by rw [hmax]; decide)
    exact Send_of_clientDo_error env c req _ hv hb hd
  · intro n status data hn hs hfinal
    have hd := clientDo_chain c.validate.1 env.server req n status (.ok data)
      (by rw [hmax]; exact_mod_cast hn) hs hfinal (c.validate.1.MaxRedirects.toNat + 2) []
      (by simp) (by rw [hmax]; simp; omega)
    obtain ⟨he, hr⟩ := Send_of_clientDo_ok env c req status data hv hb hd
    exact ⟨he, _, hr, rfl, rfl⟩

theorem send_redirect_cap_witness :
    slashConfig.MaxRedirects = 0 ∧ slashConfig.validate.2 = none ∧
      (buildRequest (sampleEnv (redirectChain 6)) slashConfig.validate.1).1 = .ok slashRequest ∧
      (Send (sampleEnv (redirectChain 6)) slashConfig).resp = none ∧
      (Send (sampleEnv (redirectChain 6)) slashConfig).err =
        some (GoError.wrapped (GoError.new "too many redirects")) ∧
      (Send (sampleEnv (redirectChain 5)) slashConfig).err = none ∧
      ∃ resp, (Send (sampleEnv (redirectChain 5)) slashConfig).resp = some resp ∧
        resp.Status = 200 ∧ resp.Data = [] :=
  have h6 := (send_redirect_cap (sampleEnv (redirectChain 6)) slashConfig slashRequest
    (by decide) (by decide) rfl).2.2.2.1 (fun k hk => by simp [sampleEnv, redirectChain, hk])
  have h5 := (send_redirect_cap (sampleEnv (redirectChain 5)) slashConfig slashRequest
    (by decide) (by decide) rfl).2.2.2.2 5 200 [] (Nat.le_refl 5)
    (fun k hk => by simp [sampleEnv, redirectChain, hk]) (by simp [sampleEnv, redirectChain])
  ⟨by decide, by decide, rfl, h6.1, h6.2, h5.1, h5.2⟩

/-! ## Caller headers -/

theorem lookup_filter_ne (h : Header) (a b : String) (hab : b ≠ a) :
    (h.filter (fun e => e.1 != a)).lookup b = h.lookup b := by
  induction h with
  | nil => rfl
  | cons e t ih =>
    obtain ⟨k, vs⟩ := e
    by_cases hk : k = a
    · subst hk
      have hbk : (b == k) = false := by simp [hab]
      simp [List.filter_cons, List.lookup_cons, hbk, ih]
    · by_cases hbk : b = k
      · simp [List.filter_cons, hk, List.lookup_cons, hbk]
      · have hbk2 : (b == k) = false := by simp [hbk]
        simp [List.filter_cons, hk, List.lookup_cons, hbk2, ih]

/-- Reading a header after `Set`: the new value under the same canonical name,
the old one under any other. -/
theorem Header.Get_Set (h : Header) (key value name : String) :
    (Header.Set h key value).Get name =
      if CanonicalMIMEHeaderKey name = CanonicalMIMEHeaderKey key then value
      else h.Get name := by
  unfold Header.Get Header.Set
  by_cases hn : CanonicalMIMEHeaderKey name = CanonicalMIMEHeaderKey key
  · simp [List.lookup_cons, hn]
  · have hb : (CanonicalMIMEHeaderKey name == CanonicalMIMEHeaderKey key) = false := by
      simp [hn]
    rw [if_neg hn, List.lookup_cons, hb, lookup_filter_ne _ _ _ hn]

/-- Entries under other canonical names leave a header as it was. -/
theorem foldl_Set_Get_of_ne (name : String) :
    ∀ (l : List (String × String)) (h : Header),
      (∀ e ∈ l, CanonicalMIMEHeaderKey e.1 ≠ CanonicalMIMEHeaderKey name) →
      (l.foldl (fun h kv => Header.Set h kv.1 kv.2) h).Get name = h.Get name := by
  intro l
  induction l with
  | nil => intro h _; rfl
  | cons e t ih =>
    intro h hne
    rw [List.foldl_cons, ih _ (fun e he => hne e (List.mem_cons_of_mem _ he)), Header.Get_Set,
      if_neg (fun hc => hne e (List.mem_cons_self _ _) hc.symm)]

/-- When some entry has the canonical name of `name` and all such entries
carry `value`, the header reads `value` after the entries are applied. -/
theorem foldl_Set_Get_of_mem (name value : String) :
    ∀ (l : List (String × String)) (h : Header),
      (∃ e ∈ l, CanonicalMIMEHeaderKey e.1 = CanonicalMIMEHeaderKey name) →
      (∀ e ∈ l, CanonicalMIMEHeaderKey e.1 = CanonicalMIMEHeaderKey name → e.2 = value) →
      (l.foldl (fun h kv => Header.Set h kv.1 kv.2) h).Get name = value := by
  intro l
  induction l with
  | nil => intro h hex _; obtain ⟨e, he, _⟩ := hex; cases he
  | cons e t ih =>
    intro h hex hall
    rw [List.foldl_cons]
    by_cases ht : ∃ e2 ∈ t, CanonicalMIMEHeaderKey e2.1 = CanonicalMIMEHeaderKey name
    · exact ih _ ht (fun e2 he2 => hall e2 (List.mem_cons_of_mem _ he2))
    · have hne : ∀ e2 ∈ t, CanonicalMIMEHeaderKey e2.1 ≠ CanonicalMIMEHeaderKey name :=
        fun e2 he2 hc => ht ⟨e2, he2, hc⟩
      have hee : CanonicalMIMEHeaderKey e.1 = CanonicalMIMEHeaderKey name := by
        obtain ⟨e2, he2, hc⟩ := hex
        rcases List.mem_cons.1 he2 with rfl | hmem
        · exact hc
        · exact absurd hc (hne e2 hmem)
      rw [foldl_Set_Get_of_ne name t _ hne, Header.Get_Set, if_pos hee.symm]
      exact hall e (List.mem_cons_self _ _) hee

/-- In a list with pairwise distinct keys a key has one value. -/
theorem value_unique_of_nodup (l : List (String × String)) (hnd : (l.map Prod.fst).Nodup)
    (k v w : String) (hv : (k, v) ∈ l) (hw : (k, w) ∈ l) : v = w := by
  induction l with
  | nil => cases hv
  | cons e t ih =>
    rw [List.map_cons, List.nodup_cons] at hnd
    rcases List.mem_cons.1 hv with rfl | hv2
    · rcases List.mem_cons.1 hw with h | hw2
      · exact (congrArg Prod.snd h).symm
      · exact absurd (List.mem_map_of_mem Prod.fst hw2) hnd.1
    · rcases List.mem_cons.1 hw with rfl | hw2
      · exact absurd (List.mem_map_of_mem Prod.fst hv2) hnd.1
      · exact ih hnd.2 hv2 hw2

/-- The headers of a built request end with the caller's entries applied in
order to the headers `Send` has set itself. -/
theorem buildRequest_headers (env : Env) (config : Config) (req : Request)
    (headers : List (String × String)) (hh : config.Headers = some headers)
    (hb : (buildRequest env config).1 = .ok req) :
    ∃ base : Header, req.Header = headers.foldl (fun h kv => Header.Set h kv.1 kv.2) base := by
  unfold buildRequest at hb
  simp only [hh] at hb
  split at hb
  · simp at hb
  · split at hb
    · simp at hb
    · simp only [Except.ok.injEq] at hb
      subst hb
      exact ⟨_, rfl⟩

/-- C6, as stated, fails: two caller headers whose names differ in case only
are stored under one canonical name, so the request carries the value of the
entry applied last and not the value of the other entry, in either order of
iteration over the map. -/
theorem send_caller_headers_counterexample :
    (caseClashConfig.Headers.WF ∧ caseClashConfig.validate.2 = none ∧
      caseClashConfig.Headers = some [("accept", "text/plain"), ("Accept", "text/html")] ∧
      ∃ req, (buildRequest (sampleEnv (redirectChain 0)) caseClashConfig.validate.1).1 = .ok req ∧
        req.Header.Get "accept" = "text/html" ∧ req.Header.Get "accept" ≠ "text/plain") ∧
    (caseClashConfigSwapped.Headers.WF ∧ caseClashConfigSwapped.validate.2 = none ∧
      caseClashConfigSwapped.Headers = some [("Accept", "text/html"), ("accept", "text/plain")] ∧
      ∃ req, (buildRequest (sampleEnv (redirectChain 0)) caseClashConfigSwapped.validate.1).1
          = .ok req ∧
        req.Header.Get "Accept" = "text/plain" ∧ req.Header.Get "Accept" ≠ "text/html") :=
  ⟨⟨by simp [GoMap.WF, caseClashConfig, Config.zero], by decide, rfl, _, rfl,
      by decide, by decide⟩,
    ⟨by simp [GoMap.WF, caseClashConfigSwapped, Config.zero], by decide, rfl, _, rfl,
      by decide, by decide⟩⟩

/-- C6, amended: on a config that passes validation and whose request can be
built, every caller header `(k, v)` whose canonical name is shared by no other
entry of `Headers` is carried by the request with value `v`, whatever `Send`
had set under that name; in particular the single entry "Accept": "text/plain"
yields the accept header "text/plain". -/
theorem send_caller_headers (env : Env) (c : Config) (req : Request)
    (headers : List (String × String)) (hv : c.validate.2 = none)
    (hb : (buildRequest env c.validate.1).1 = .ok req)
    (hh : c.Headers = some headers) (hwf : c.Headers.WF) :
    (∀ k v, (k, v) ∈ headers →
        (∀ k2 v2, (k2, v2) ∈ headers →
          CanonicalMIMEHeaderKey k2 = CanonicalMIMEHeaderKey k → k2 = k) →
        req.Header.Get k = v) ∧
      (headers = [("Accept", "text/plain")] → req.Header.Get "Accept" = "text/plain") := by
  have hnd : (headers.map Prod.fst).Nodup := by
    rw [hh] at hwf
    exact hwf
  have hh2 : c.validate.1.Headers = some headers := by
    rw [(validate_ok c hv).1]
    exact hh
  obtain ⟨base, hbase⟩ := buildRequest_headers env c.validate.1 req headers hh2 hb
  have main : ∀ k v, (k, v) ∈ headers →
      (∀ k2 v2, (k2, v2) ∈ headers →
        CanonicalMIMEHeaderKey k2 = CanonicalMIMEHeaderKey k → k2 = k) →
      req.Header.Get k = v := by
    intro k v hmem huniq
    rw [hbase]
    refine foldl_Set_Get_of_mem k v headers base ⟨(k, v), hmem, rfl⟩ ?_
    intro e he hc
    obtain ⟨k2, v2⟩ := e
    have hk : k2 = k := huniq k2 v2 he hc
    subst hk
    exact value_unique_of_nodup headers hnd k2 v2 v he hmem
  refine ⟨main, ?_⟩
  intro hsingle
  apply main "Accept" "text/plain"
  · rw [hsingle]
    exact List.mem_singleton.2 rfl
  · intro k2 v2 hmem _
    rw [hsingle] at hmem
    exact congrArg Prod.fst (List.mem_singleton.1 hmem)

theorem send_caller_headers_witness :
    acceptConfig.validate.2 = none ∧
      (buildRequest (sampleEnv (redirectChain 0)) acceptConfig.validate.1).1 = .ok acceptRequest ∧
      acceptConfig.Headers = some [("Accept", "text/plain")] ∧ acceptConfig.Headers.WF ∧
      acceptRequest.Header.Get "Accept" = "text/plain" :=
  have hwf : acceptConfig.Headers.WF := by simp [GoMap.WF, acceptConfig, Config.zero]
  ⟨by decide, rfl, rfl, hwf,
    (send_caller_headers (sampleEnv (redirectChain 0)) acceptConfig acceptRequest
      [("Accept", "text/plain")] (by decide) rfl rfl hwf).2 rfl⟩

/-! ## The outcome of `validate` -/

/-- C11: `validate` returns an error exactly when the bearer token is
non-empty and the basic-auth map non-nil, or the body is non-nil and the
method is "GET"; the one error it returns is that of the first failing check:
the conflicting-auth error whenever the auth condition holds (also when the
body condition holds too), the body-not-allowed error otherwise. -/
theorem validate_error_iff (c : Config) :
    (c.validate.2 ≠ none ↔
        (c.BearerToken ≠ "" ∧ c.BasicAuth ≠ none) ∨ (c.Body ≠ none ∧ c.Method = "GET")) ∧
      (c.BearerToken ≠ "" ∧ c.BasicAuth ≠ none →
        c.validate.2 = some (GoError.new "cannot authenticate with bearer and basic auth")) ∧
      (¬ (c.BearerToken ≠ "" ∧ c.BasicAuth ≠ none) → c.Body ≠ none ∧ c.Method = "GET" →
        c.validate.2 = some (GoError.new "body not allowed for 'GET' method")) := by
  have key := validate_eq c
  have e1 : (c.BearerToken ≠ "" ∧ c.BasicAuth.isSome = true) ↔
      (c.BearerToken ≠ "" ∧ c.BasicAuth ≠ none) := by rw [isSome_iff_ne_none]
  have e2 : (c.Body.isSome = true ∧ c.Method = "GET") ↔ (c.Body ≠ none ∧ c.Method = "GET") := by
    rw [isSome_iff_ne_none]
  by_cases h1 : c.BearerToken ≠ "" ∧ c.BasicAuth.isSome = true
  · rw [if_pos h1] at key
    rw [key]
    exact ⟨⟨fun _ => Or.inl (e1.1 h1), fun _ => by simp⟩, fun _ => rfl,
      fun h => absurd (e1.1 h1) h⟩
  · by_cases h2 : c.Body.isSome = true ∧ c.Method = "GET"
    · rw [if_neg h1, if_pos h2] at key
      rw [key]
      exact ⟨⟨fun _ => Or.inr (e2.1 h2), fun _ => by simp⟩, fun h => absurd (e1.2 h) h1,
        fun _ _ => rfl⟩
    · rw [if_neg h1, if_neg h2] at key
      rw [key]
      refine ⟨⟨fun h => absurd rfl h, fun h => ?_⟩, fun h => absurd (e1.2 h) h1,
        fun _ h => absurd (e2.2 h) h2⟩
      rcases h with h | h
      · exact absurd (e1.2 h) h1
      · exact absurd (e2.2 h) h2

theorem validate_error_iff_witness :
    (conflictGetConfig.BearerToken ≠ "" ∧ conflictGetConfig.BasicAuth ≠ none) ∧
      (conflictGetConfig.Body ≠ none ∧ conflictGetConfig.Method = "GET") ∧
      conflictGetConfig.validate.2 =
        some (GoError.new "cannot authenticate with bearer and basic auth") ∧
      slashConfig.validate.2 = none :=
  have hauth : conflictGetConfig.BearerToken ≠ "" ∧ conflictGetConfig.BasicAuth ≠ none :=
    ⟨by decide, by decide⟩
  ⟨hauth, ⟨by simp [conflictGetConfig], by decide⟩,
    (validate_error_iff conflictGetConfig).2.1 hauth,
    by
      have h := (validate_error_iff slashConfig).1
      by_contra hne
      rcases h.1 hne with h1 | h2
      · exact absurd h1.1 (by decide)
      · exact absurd h2.2 (by decide)⟩

/-- C19: `validate` leaves URL, Method, Body, Params, Headers, BasicAuth,
BearerToken, AsMultipart, AsURLEncoded, StructScan, Retries and RetrySleep as
they were; it keeps a non-empty user agent and a non-zero (also a negative)
timeout and redirect cap; and when it returns an error it leaves Accepts,
ContentType and BaseURL as they were. -/
theorem validate_frame (c : Config) :
    (c.validate.1.URL = c.URL ∧ c.validate.1.Method = c.Method ∧
      c.validate.1.Body = c.Body ∧ c.validate.1.Params = c.Params ∧
      c.validate.1.Headers = c.Headers ∧ c.validate.1.BasicAuth = c.BasicAuth ∧
      c.validate.1.BearerToken = c.BearerToken ∧ c.validate.1.AsMultipart = c.AsMultipart ∧
      c.validate.1.AsURLEncoded = c.AsURLEncoded ∧ c.validate.1.StructScan = c.StructScan ∧
      c.validate.1.Retries = c.Retries ∧ c.validate.1.RetrySleep = c.RetrySleep) ∧
      (c.UserAgent ≠ "" → c.validate.1.UserAgent = c.UserAgent) ∧
      (c.Timeout ≠ 0 → c.validate.1.Timeout = c.Timeout) ∧
      (c.MaxRedirects ≠ 0 → c.validate.1.MaxRedirects = c.MaxRedirects) ∧
      (c.validate.2 ≠ none →
        c.validate.1.Accepts = c.Accepts ∧ c.validate.1.ContentType = c.ContentType ∧
        c.validate.1.BaseURL = c.BaseURL) := by
  have key := validate_eq c
  refine ⟨?_, ?_, ?_, ?_, ?_⟩
  · rcases validate_fst_defaulted c with h | h <;> rw [h] <;>
      exact ⟨rfl, rfl, rfl, rfl, rfl, rfl, rfl, rfl, rfl, rfl, rfl, rfl⟩
  · intro hne
    rcases validate_fst_defaulted c with h | h <;> rw [h] <;> exact if_neg hne
  · intro hne
    rcases validate_fst_defaulted c with h | h <;> rw [h] <;> exact if_neg hne
  · intro hne
    rcases validate_fst_defaulted c with h | h <;> rw [h] <;> exact if_neg hne
  · intro herr
    split_ifs at key with h1 h2
    · rw [key]
      exact ⟨rfl, rfl, rfl⟩
    · rw [key]
      exact ⟨rfl, rfl, rfl⟩
    · rw [key] at herr
      exact absurd rfl herr

theorem validate_frame_witness :
    fullConfig.validate.1.Method = "post" ∧ fullConfig.validate.1.UserAgent = "agent" ∧
      fullConfig.validate.1.Timeout = -3 ∧ fullConfig.validate.1.MaxRedirects = -1 ∧
      conflictGetConfig.validate.1.ContentType = conflictGetConfig.ContentType ∧
      conflictGetConfig.validate.1.BaseURL = conflictGetConfig.BaseURL :=
  have hf := validate_frame fullConfig
  have hc := (validate_frame conflictGetConfig).2.2.2.2 (by decide)
  ⟨hf.1.2.1, hf.2.1 (by decide), hf.2.2.1 (by decide), hf.2.2.2.1 (by decide), hc.2.1, hc.2.2⟩

/-! ## Idempotence of `validate` -/

theorem trimLeftByte_of_head (l : List Char) (c : Char) (h : l.head? ≠ some c) :
    trimLeftByte l c = l := by
  cases l with
  | nil => rfl
  | cons x t =>
    have hx : x ≠ c := fun hxc => h (by rw [hxc]; rfl)
    simp [trimLeftByte, List.dropWhile_cons, hx]

theorem trimRightByte_of_last (l : List Char) (c : Char) (h : l.getLast? ≠ some c) :
    trimRightByte l c = l := by
  have hr : trimLeftByte l.reverse c = l.reverse :=
    trimLeftByte_of_head l.reverse c (by rw [List.head?_reverse]; exact h)
  unfold trimRightByte
  unfold trimLeftByte at hr
  rw [hr, List.reverse_reverse]

/-- Trimming a trimmed string changes nothing. -/
theorem Trim_idem (s : String) (c : Char) : Trim (Trim s c) c = Trim s c := by
  obtain ⟨_, _, _, hhead, hlast⟩ := Trim_split s c
  show (⟨trimLeftByte (trimRightByte (Trim s c).data c) c⟩ : String) = Trim s c
  rw [trimRightByte_of_last _ c hlast, trimLeftByte_of_head _ c hhead]

theorem defaulted_defaulted (c : Config) : c.defaulted.defaulted = c.defaulted := by
  rcases c with ⟨url, method, baseURL, basicAuth, bearer, headers, timeout, body, params, ua,
    acceptJSON, accepts, asMultipart, asURLEncoded, contentType, scan, maxRedirects, retries,
    retrySleep⟩
  have hua : defaultUserAgent ≠ "" := by decide
  have ht : defaultTimeout ≠ 0 := by decide
  have hm : defaultMaxRedirects ≠ 0 := by decide
  simp only [Config.defaulted, Config.mk.injEq, true_and, and_true]
  refine ⟨?_, ?_, ?_⟩
  · by_cases h : timeout = 0 <;> simp [h, ht]
  · by_cases h : ua = "" <;> simp [h, hua]
  · by_cases h : maxRedirects = 0 <;> simp [h, hm]

theorem normalised_normalised (c : Config) : c.normalised.normalised = c.normalised := by
  have hd := defaulted_defaulted c
  rcases c with ⟨url, method, baseURL, basicAuth, bearer, headers, timeout, body, params, ua,
    acceptJSON, accepts, asMultipart, asURLEncoded, contentType, scan, maxRedirects, retries,
    retrySleep⟩
  have hct : defaultContentType ≠ "" := by decide
  simp only [Config.defaulted, Config.mk.injEq, true_and, and_true] at hd
  simp only [Config.normalised, Config.defaulted, Config.mk.injEq, true_and, and_true]
  refine ⟨?_, hd.1, hd.2.1, ?_, hd.2.2⟩
  · by_cases h : baseURL = ""
    · simp [h]
    · by_cases h2 : Trim baseURL '/' = ""
      · simp [h, h2]
      · simp [h, h2, Trim_idem]
  · cases asURLEncoded <;> cases asMultipart <;> by_cases h : contentType = "" <;>
      simp [h, hct]

/-- C17: `validate` is idempotent: run on the config a first run has left, it
returns the same error (or none) and leaves every field as it was. -/
theorem validate_idempotent (c : Config) : c.validate.1.validate = c.validate := by
  have key := validate_eq c
  split_ifs at key with h1 h2
  · rw [key]
    show c.defaulted.validate = _
    rw [validate_eq, if_pos (by exact h1), defaulted_defaulted]
  · rw [key]
    show c.defaulted.validate = _
    rw [validate_eq, if_neg (by exact h1), if_pos (by exact h2), defaulted_defaulted]
  · rw [key]
    show c.normalised.validate = _
    rw [validate_eq, if_neg (by exact h1), if_neg (by exact h2), normalised_normalised]

theorem validate_idempotent_witness :
    fullConfig.validate.1.validate = fullConfig.validate ∧
      conflictGetConfig.validate.1.validate.2 =
        some (GoError.new "cannot authenticate with bearer and basic auth") :=
  ⟨validate_idempotent fullConfig, by rw [validate_idempotent conflictGetConfig]; decide⟩

/-! ## The outcomes of `Send` -/

/-- A validation error is what `Send` returns, before any external call. -/
theorem Send_of_validate_error (env : Env) (c : Config) (err : GoError)
    (hv : c.validate.2 = some err) :
    (Send env c).resp = none ∧ (Send env c).err = some err ∧ (Send env c).trace = [] := by
  rcases hcv : c.validate with ⟨c1, e⟩
  rw [hcv] at hv
  simp only at hv
  subst hv
  simp [Send, hcv]

/-- An error of the request construction (serialisation or `http.NewRequest`)
is what `Send` returns. -/
theorem Send_of_build_error (env : Env) (c : Config) (err : GoError)
    (hv : c.validate.2 = none) (hb : (buildRequest env c.validate.1).1 = .error err) :
    (Send env c).resp = none ∧ (Send env c).err = some err := by
  rcases hcv : c.validate with ⟨c1, e⟩
  rw [hcv] at hv hb
  simp only at hv hb
  subst hv
  rcases hbr : buildRequest env c1 with ⟨r, log⟩
  rw [hbr] at hb
  simp only at hb
  subst hb
  simp [Send, hcv, hbr]

/-- An error of reading the response body is what `Send` returns. -/
theorem Send_of_read_error (env : Env) (c : Config) (req : Request) (status : Int)
    (err : GoError) (hv : c.validate.2 = none)
    (hb : (buildRequest env c.validate.1).1 = .ok req)
    (hd : (clientDo (CheckRedirect c.validate.1) env.server req
      (c.validate.1.MaxRedirects.toNat + 2) []).1 = .ok (status, .error err)) :
    (Send env c).resp = none ∧ (Send env c).err = some err := by
  rcases hcv : c.validate with ⟨c1, e⟩
  rw [hcv] at hv hb hd
  simp only at hv hb hd
  subst hv
  rcases hbr : buildRequest env c1 with ⟨r, log⟩
  rw [hbr] at hb
  simp only at hb
  subst hb
  rcases hcd : clientDo (CheckRedirect c1) env.server req (c1.MaxRedirects.toNat + 2) []
    with ⟨res, sent⟩
  rw [hcd] at hd
  simp only at hd
  subst hd
  simp [Send, hcv, hbr, hcd]

/-- A serialisation error is the error of the request construction. -/
theorem buildRequest_marshal_error (env : Env) (config : Config) (body : List (String × Any))
    (err : GoError) (hbody : config.Body = some body) (hm : env.jsonMarshal body = .error err) :
    (buildRequest env config).1 = .error err := by
  simp [buildRequest, hbody, hm]

/-- An error of `http.NewRequest` is the error of the request construction. -/
theorem buildRequest_newRequest_error (env : Env) (config : Config) (buf : Option Bytes)
    (err : GoError)
    (hbuf : (config.Body = none ∧ buf = none) ∨
      ∃ body b, config.Body = some body ∧ env.jsonMarshal body = .ok b ∧ buf = some b)
    (hn : NewRequest env (ToUpper env.upperRune config.Method) config.URL buf = .error err) :
    (buildRequest env config).1 = .error err := by
  rcases hbuf with ⟨hbody, rfl⟩ | ⟨body, b, hbody, hm, rfl⟩
  · simp [buildRequest, hbody, hn]
  · simp [buildRequest, hbody, hm, hn]

/-- The fields `Send` reads that `validate` never writes. -/
theorem validate_keeps (c : Config) :
    c.validate.1.Method = c.Method ∧ c.validate.1.URL = c.URL ∧ c.validate.1.Body = c.Body ∧
      c.validate.1.Headers = c.Headers ∧ c.validate.1.BasicAuth = c.BasicAuth ∧
      c.validate.1.BearerToken = c.BearerToken := by
  rcases validate_fst_defaulted c with h | h <;> rw [h] <;> exact ⟨rfl, rfl, rfl, rfl, rfl, rfl⟩

/-- C12: whatever the serialiser, the request constructor and the network do,
`Send` returns either a response and a nil error or a nil response and an
error. An error of validation, of JSON encoding, of request construction, of
the transport or of reading the body is returned as it is, with a nil
response. The bound on the redirect loop does not show in the result. -/
theorem send_result_exclusive (env : Env) (c : Config) :
    (((Send env c).resp ≠ none ∧ (Send env c).err = none) ∨
        ((Send env c).resp = none ∧ (Send env c).err ≠ none)) ∧
      (∀ err, c.validate.2 = some err →
        (Send env c).resp = none ∧ (Send env c).err = some err) ∧
      (∀ body err, c.validate.2 = none → c.Body = some body →
        env.jsonMarshal body = .error err →
        (Send env c).resp = none ∧ (Send env c).err = some err) ∧
      (∀ buf err, c.validate.2 = none →
        ((c.Body = none ∧ buf = none) ∨
          ∃ body b, c.Body = some body ∧ env.jsonMarshal body = .ok b ∧ buf = some b) →
        NewRequest env (ToUpper env.upperRune c.Method) c.URL buf = .error err →
        (Send env c).resp = none ∧ (Send env c).err = some err) ∧
      (∀ req err, c.validate.2 = none → (buildRequest env c.validate.1).1 = .ok req →
        (clientDo (CheckRedirect c.validate.1) env.server req
          (c.validate.1.MaxRedirects.toNat + 2) []).1 = .error err →
        (Send env c).resp = none ∧ (Send env c).err = some err) ∧
      (∀ req status err, c.validate.2 = none → (buildRequest env c.validate.1).1 = .ok req →
        (clientDo (CheckRedirect c.validate.1) env.server req
          (c.validate.1.MaxRedirects.toNat + 2) []).1 = .ok (status, .error err) →
        (Send env c).resp = none ∧ (Send env c).err = some err) ∧
      (∀ req extra,
        clientDo (CheckRedirect c.validate.1) env.server req
          (c.validate.1.MaxRedirects.toNat + 2 + extra) [] =
        clientDo (CheckRedirect c.validate.1) env.server req
          (c.validate.1.MaxRedirects.toNat + 2) []) := by
  obtain ⟨hmeth, hurl, hbody, _, _, _⟩ := validate_keeps c
  refine ⟨?_, ?_, ?_, ?_, ?_, ?_, ?_⟩
  · cases hv : c.validate.2 with
    | some err =>
      obtain ⟨h1, h2, _⟩ := Send_of_validate_error env c err hv
      exact Or.inr ⟨h1, by rw [h2]; simp⟩
    | none =>
      cases hb : (buildRequest env c.validate.1).1 with
      | error err =>
        obtain ⟨h1, h2⟩ := Send_of_build_error env c err hv hb
        exact Or.inr ⟨h1, by rw [h2]; simp⟩
      | ok req =>
        cases hd : (clientDo (CheckRedirect c.validate.1) env.server req
            (c.validate.1.MaxRedirects.toNat + 2) []).1 with
        | error err =>
          obtain ⟨h1, h2⟩ := Send_of_clientDo_error env c req err hv hb hd
          exact Or.inr ⟨h1, by rw [h2]; simp⟩
        | ok res =>
          obtain ⟨status, body⟩ := res
          cases body with
          | error err =>
            obtain ⟨h1, h2⟩ := Send_of_read_error env c req status err hv hb hd
            exact Or.inr ⟨h1, by rw [h2]; simp⟩
          | ok data =>
            obtain ⟨h1, h2⟩ := Send_of_clientDo_ok env c req status data hv hb hd
            exact Or.inl ⟨by rw [h2]; simp, h1⟩
  · intro err hv
    obtain ⟨h1, h2, _⟩ := Send_of_validate_error env c err hv
    exact ⟨h1, h2⟩
  · intro body err hv hb hm
    exact Send_of_build_error env c err hv
      (buildRequest_marshal_error env c.validate.1 body err (by rw [hbody]; exact hb) hm)
  · intro buf err hv hbuf hn
    refine Send_of_build_error env c err hv
      (buildRequest_newRequest_error env c.validate.1 buf err ?_ (by rw [hmeth, hurl]; exact hn))
    rw [hbody]
    exact hbuf
  · intro req err hv hb hd
    exact Send_of_clientDo_error env c req err hv hb hd
  · intro req status err hv hb hd
    exact Send_of_read_error env c req status err hv hb hd
  · intro req extra
    exact clientDo_fuel_irrelevant c.validate.1 env.server req extra _ [] (by simp)

theorem send_result_exclusive_witness :
    (Send { sampleEnv notFoundServer with jsonMarshal := fun _ => .error (GoError.ext 7) }
        lowerGetBodyConfig).resp = none ∧
      (Send { sampleEnv notFoundServer with jsonMarshal := fun _ => .error (GoError.ext 7) }
        lowerGetBodyConfig).err = some (GoError.ext 7) :=
  (send_result_exclusive
    { sampleEnv notFoundServer with jsonMarshal := fun _ => .error (GoError.ext 7) }
    lowerGetBodyConfig).2.2.1 [("a", Any.int 1)] (GoError.ext 7) (by decide) rfl rfl

/-! ## The request `Send` builds -/

/-- What `http.NewRequest` returns when it succeeds. -/
theorem NewRequest_ok (env : Env) (method url : String) (body : Option Bytes) (req : Request)
    (h : NewRequest env method url body = .ok req) :
    req = { Method := if method.data.isEmpty then "GET" else method, URL := url,
            Body := body, Header := [] } := by
  unfold NewRequest at h
  simp only at h
  by_cases hvalid : (!validMethod (if method.data.isEmpty then "GET" else method)) = true
  · rw [if_pos hvalid] at h
    simp at h
  · rw [if_neg hvalid] at h
    cases hp : env.parseURL url with
    | some err => rw [hp] at h; simp at h
    | none =>
      rw [hp] at h
      simp only [Except.ok.injEq] at h
      exact h.symm

/-- When `http.NewRequest` succeeds. -/
theorem NewRequest_succeeds (env : Env) (method url : String) (body : Option Bytes)
    (hm : validMethod (if method.data.isEmpty then "GET" else method) = true)
    (hu : env.parseURL url = none) :
    NewRequest env method url body =
      .ok { Method := if method.data.isEmpty then "GET" else method, URL := url,
            Body := body, Header := [] } := by
  unfold NewRequest
  simp only [hm, hu]
  rfl

/-- The headers set on a request that starts with none, as lines 74 to 95 do. -/
theorem buildRequest_of_newRequest (env : Env) (config : Config) (buf : Option Bytes)
    (req : Request)
    (hbuf : (config.Body = none ∧ buf = none) ∨
      ∃ body b, config.Body = some body ∧ env.jsonMarshal body = .ok b ∧ buf = some b)
    (hn : NewRequest env (ToUpper env.upperRune config.Method) config.URL buf = .ok req) :
    (buildRequest env config).1 =
      .ok { Method := requestMethod env config, URL := config.URL, Body := buf,
            Header := sentHeader env config } := by
  have hreq := NewRequest_ok env _ _ _ _ hn
  subst hreq
  have hmarsh : (match config.Body with
      | some body =>
        match env.jsonMarshal body with
        | .error err => (Except.error err : Except GoError (Option Bytes))
        | .ok b => .ok (some b)
      | none => .ok none) = .ok buf := by
    rcases hbuf with ⟨hbody, rfl⟩ | ⟨body, b, hbody, hm, rfl⟩
    · rw [hbody]
    · rw [hbody]
      simp only [hm]
  unfold buildRequest
  simp only [hmarsh, hn]
  cases hB : config.Body.isSome <;> cases hA : config.BasicAuth.isSome <;>
    cases hT : IsStringEmpty config.BearerToken <;> cases hH : config.Headers <;>
    simp [sentHeader, requestMethod, Request.SetBasicAuth, hB, hA, hT, hH]

/-- The request `Send` has built, as a function of the config. -/
theorem buildRequest_ok (env : Env) (config : Config) (req : Request)
    (hb : (buildRequest env config).1 = .ok req) :
    req.Header = sentHeader env config ∧ req.Method = requestMethod env config ∧
      req.URL = config.URL ∧ (config.Body = none → req.Body = none) ∧
      (∀ body, config.Body = some body → ∃ b, env.jsonMarshal body = .ok b ∧ req.Body = some b) := by
  cases hbody : config.Body with
  | none =>
    cases hn : NewRequest env (ToUpper env.upperRune config.Method) config.URL none with
    | error err =>
      rw [buildRequest_newRequest_error env config none err (Or.inl ⟨hbody, rfl⟩) hn] at hb
      simp at hb
    | ok r =>
      rw [buildRequest_of_newRequest env config none r (Or.inl ⟨hbody, rfl⟩) hn] at hb
      simp only [Except.ok.injEq] at hb
      subst hb
      exact ⟨rfl, rfl, rfl, fun _ => rfl, fun body h => by simp at h⟩
  | some body =>
    cases hm : env.jsonMarshal body with
    | error err =>
      rw [buildRequest_marshal_error env config body err hbody hm] at hb
      simp at hb
    | ok b =>
      have hbuf : (config.Body = none ∧ some b = none) ∨
          ∃ body b2, config.Body = some body ∧ env.jsonMarshal body = .ok b2 ∧ some b = some b2 :=
        Or.inr ⟨body, b, hbody, hm, rfl⟩
      cases hn : NewRequest env (ToUpper env.upperRune config.Method) config.URL (some b) with
      | error err =>
        rw [buildRequest_newRequest_error env config (some b) err hbuf hn] at hb
        simp at hb
      | ok r =>
        rw [buildRequest_of_newRequest env config (some b) r hbuf hn] at hb
        simp only [Except.ok.injEq] at hb
        subst hb
        refine ⟨rfl, rfl, rfl, fun h => by simp at h, fun body2 h => ?_⟩
        simp only [Option.some.injEq] at h
        subst h
        exact ⟨b, hm, rfl⟩

/-- Upper-casing keeps the length of a string, so only the empty method
upper-cases to the empty string. -/
theorem ToUpper_isEmpty (upperRune : Char → Char) (s : String) :
    (ToUpper upperRune s).data.isEmpty = s.data.isEmpty := by
  unfold ToUpper
  split_ifs <;> cases s.data <;> rfl

theorem requestMethod_eq (env : Env) (config : Config) :
    requestMethod env config =
      if config.Method = "" then "GET" else ToUpper env.upperRune config.Method := by
  unfold requestMethod
  rw [ToUpper_isEmpty]
  have h := IsStringEmpty_eq_decide config.Method
  unfold IsStringEmpty at h
  rw [h]
  by_cases hm : config.Method = "" <;> simp [hm]

/-- Reading the raw header map after `Set`. -/
theorem lookup_Set (h : Header) (key value name : String) :
    (Header.Set h key value).lookup name =
      if name = CanonicalMIMEHeaderKey key then some [value] else h.lookup name := by
  unfold Header.Set
  by_cases hn : name = CanonicalMIMEHeaderKey key
  · simp [List.lookup_cons, hn]
  · have hb : (name == CanonicalMIMEHeaderKey key) = false := by simp [hn]
    rw [if_neg hn, List.lookup_cons, hb, lookup_filter_ne _ _ _ hn]

/-- Caller headers under other canonical names leave a raw entry as it was. -/
theorem lookup_foldl_Set_of_ne (name : String) :
    ∀ (l : List (String × String)) (h : Header),
      (∀ e ∈ l, CanonicalMIMEHeaderKey e.1 ≠ name) →
      (l.foldl (fun h kv => Header.Set h kv.1 kv.2) h).lookup name = h.lookup name := by
  intro l
  induction l with
  | nil => intro h _; rfl
  | cons e t ih =>
    intro h hne
    rw [List.foldl_cons, ih _ (fun e he => hne e (List.mem_cons_of_mem _ he)), lookup_Set,
      if_neg (fun hc => hne e (List.mem_cons_self _ _) hc.symm)]

/-- Caller headers never remove a header. -/
theorem lookup_foldl_Set_isSome (name : String) :
    ∀ (l : List (String × String)) (h : Header), (h.lookup name).isSome = true →
      ((l.foldl (fun h kv => Header.Set h kv.1 kv.2) h).lookup name).isSome = true := by
  intro l
  induction l with
  | nil => intro h hs; exact hs
  | cons e t ih =>
    intro h hs
    rw [List.foldl_cons]
    apply ih
    rw [lookup_Set]
    split_ifs
    · rfl
    · exact hs

/-- A network that answers the first request makes the client return that
answer, whatever the redirect policy. -/
theorem clientDo_first_response (policy : Request → List Request → Option GoError)
    (server : Nat → Reply) (req : Request) (fuel : Nat) (status : Int)
    (body : Except GoError Bytes) (hs : server 0 = Reply.response status body) :
    (clientDo policy server req (fuel + 1) []).1 = .ok (status, body) := by
  unfold clientDo
  simp [hs]

/-! ## The end-to-end scenario -/

/-- C13, as stated, fails: a config that leaves the method unset upper-cases to
the empty method, and the request `Send` builds has the method "GET". -/
theorem send_plain_request_counterexample :
    emptyMethodConfig.Body = none ∧ emptyMethodConfig.BasicAuth = none ∧
      emptyMethodConfig.BearerToken = "" ∧ emptyMethodConfig.Headers = none ∧
      emptyMethodConfig.UserAgent = "" ∧ emptyMethodConfig.validate.2 = none ∧
      ToUpper (sampleEnv notFoundServer).upperRune emptyMethodConfig.Method = "" ∧
      ∃ req, (buildRequest (sampleEnv notFoundServer) emptyMethodConfig.validate.1).1 = .ok req ∧
        req.Method = "GET" ∧
        req.Method ≠ ToUpper (sampleEnv notFoundServer).upperRune emptyMethodConfig.Method :=
  ⟨rfl, rfl, rfl, rfl, rfl, by decide, by decide, _, rfl, by decide, by decide⟩

/-- C13, amended: for a config with nil body, nil basic auth, empty bearer
token, nil headers and empty user agent, validation succeeds, and the request
`Send` builds (when the method and the URL are accepted) has the upper-cased
method, or "GET" when the method is empty, no body, and exactly the headers
Accept = "application/json" and User-Agent = "gozzle-client-v1.0"; when the
transport returns an answer with status 404 (for one, when the network
answers the first request so), the response has status 404, status text
"Not Found" and the bytes of the answer as data. -/
theorem send_plain_request (env : Env) (c : Config) (req : Request)
    (hbody : c.Body = none) (hauth : c.BasicAuth = none) (hbearer : c.BearerToken = "")
    (hheaders : c.Headers = none) (hua : c.UserAgent = "")
    (hb : (buildRequest env c.validate.1).1 = .ok req) :
    c.validate.2 = none ∧
      req.Method = (if c.Method = "" then "GET" else ToUpper env.upperRune c.Method) ∧
      req.Body = none ∧
      req.Header = [("User-Agent", ["gozzle-client-v1.0"]), ("Accept", ["application/json"])] ∧
      req.Header.Get "Accept" = "application/json" ∧
      req.Header.Get "User-Agent" = "gozzle-client-v1.0" ∧
      req.Header.Has "Content-Type" = false ∧ req.Header.Has "Authorization" = false ∧
      (∀ data,
        (clientDo (CheckRedirect c.validate.1) env.server req
          (c.validate.1.MaxRedirects.toNat + 2) []).1 = .ok (404, .ok data) →
        (Send env c).err = none ∧
        ∃ resp, (Send env c).resp = some resp ∧ resp.Status = 404 ∧
          resp.StatusText = "Not Found" ∧ resp.Data = data) ∧
      (∀ data, env.server 0 = Reply.response 404 (.ok data) →
        (Send env c).err = none ∧
        ∃ resp, (Send env c).resp = some resp ∧ resp.Status = 404 ∧
          resp.StatusText = "Not Found" ∧ resp.Data = data) := by
  have hv : c.validate.2 = none := by
    rw [validate_eq, if_neg (fun h => h.1 hbearer), if_neg (fun h => by simp [hbody] at h)]
  obtain ⟨hnorm, _, _⟩ := validate_ok c hv
  obtain ⟨hH, hM, _, hB, _⟩ := buildRequest_ok env c.validate.1 req hb
  have hheader : req.Header =
      [("User-Agent", ["gozzle-client-v1.0"]), ("Accept", ["application/json"])] := by
    rw [hH, hnorm]
    simp [sentHeader, Config.normalised, Config.defaulted, hbody, hauth, hbearer, hheaders, hua,
      IsStringEmpty_eq_decide, Header.Set, defaultUserAgent]
    decide
  refine ⟨hv, ?_, ?_, hheader, ?_, ?_, ?_, ?_, ?_, ?_⟩
  · rw [hM, requestMethod_eq, hnorm]
    rfl
  · exact hB (by rw [hnorm]; exact hbody)
  · rw [hheader]; decide
  · rw [hheader]; decide
  · rw [hheader]; decide
  · rw [hheader]; decide
  · intro data hd
    obtain ⟨he, hr⟩ := Send_of_clientDo_ok env c req 404 data hv hb hd
    exact ⟨he, _, hr, rfl, rfl, rfl⟩
  · intro data hs
    have hd := clientDo_first_response (CheckRedirect c.validate.1) env.server req
      (c.validate.1.MaxRedirects.toNat + 1) 404 (.ok data) hs
    obtain ⟨he, hr⟩ := Send_of_clientDo_ok env c req 404 data hv hb hd
    exact ⟨he, _, hr, rfl, rfl, rfl⟩

theorem send_plain_request_witness :
    scenarioConfig.Body = none ∧ scenarioConfig.BasicAuth = none ∧
      scenarioConfig.BearerToken = "" ∧ scenarioConfig.Headers = none ∧
      scenarioConfig.UserAgent = "" ∧
      (buildRequest (sampleEnv notFoundServer) scenarioConfig.validate.1).1
        = .ok scenarioRequest ∧
      scenarioRequest.Method = "GET" ∧
      (Send (sampleEnv notFoundServer) scenarioConfig).err = none ∧
      ∃ resp, (Send (sampleEnv notFoundServer) scenarioConfig).resp = some resp ∧
        resp.Status = 404 ∧ resp.StatusText = "Not Found" ∧ resp.Data = [110, 111] :=
  have h := send_plain_request (sampleEnv notFoundServer) scenarioConfig scenarioRequest
    rfl rfl rfl rfl rfl rfl
  have h404 := h.2.2.2.2.2.2.2.2.2 [110, 111] rfl
  ⟨rfl, rfl, rfl, rfl, rfl, rfl, rfl, h404.1, h404.2⟩

/-! ## The response envelope -/

/-- The config `Send` leaves behind is the one `validate` has left. -/
theorem Send_config (env : Env) (c : Config) : (Send env c).config = c.validate.1 := by
  rcases hcv : c.validate with ⟨c1, e⟩
  cases e with
  | some err => simp [Send, hcv]
  | none =>
    rcases hbr : buildRequest env c1 with ⟨r, log⟩
    cases r with
    | error err => simp [Send, hcv, hbr]
    | ok req =>
      rcases hcd : clientDo (CheckRedirect c1) env.server req (c1.MaxRedirects.toNat + 2) []
        with ⟨res, sent⟩
      cases res with
      | error err => simp [Send, hcv, hbr, hcd]
      | ok p =>
        obtain ⟨status, body⟩ := p
        cases body with
        | error err => simp [Send, hcv, hbr, hcd]
        | ok data => simp [Send, hcv, hbr, hcd]

/-- C14: a response returned by `Send` comes from a successful validation, a
built request and an answer of the network whose body was read; its data are
the bytes of that body, its status the status of the answer, its status text
the standard phrase of that status, its config the normalised config `Send`
leaves behind, its request the built request, and its headers are nil,
whatever headers came with the answer. -/
theorem send_response_fields (env : Env) (c : Config) (resp : Response)
    (h : (Send env c).resp = some resp) :
    c.validate.2 = none ∧ (Send env c).err = none ∧
      (∃ req status, (buildRequest env c.validate.1).1 = .ok req ∧
        (clientDo (CheckRedirect c.validate.1) env.server req
          (c.validate.1.MaxRedirects.toNat + 2) []).1 = .ok (status, .ok resp.Data) ∧
        resp.Status = status ∧ resp.StatusText = StatusText status ∧ resp.Request = req) ∧
      resp.Config = c.validate.1 ∧ resp.Config = (Send env c).config ∧
      resp.Headers = none ∧
      (∀ sent : Nat → Header, (Send { env with replyHeader := sent } c).resp = some resp) := by
  have hframe : ∀ sent : Nat → Header, Send { env with replyHeader := sent } c = Send env c :=
    fun _ => rfl
  cases hv : c.validate.2 with
  | some err =>
    rw [(Send_of_validate_error env c err hv).1] at h
    simp at h
  | none =>
    cases hb : (buildRequest env c.validate.1).1 with
    | error err =>
      rw [(Send_of_build_error env c err hv hb).1] at h
      simp at h
    | ok req =>
      cases hd : (clientDo (CheckRedirect c.validate.1) env.server req
          (c.validate.1.MaxRedirects.toNat + 2) []).1 with
      | error err =>
        rw [(Send_of_clientDo_error env c req err hv hb hd).1] at h
        simp at h
      | ok res =>
        obtain ⟨status, body⟩ := res
        cases body with
        | error err =>
          rw [(Send_of_read_error env c req status err hv hb hd).1] at h
          simp at h
        | ok data =>
          obtain ⟨he, hr⟩ := Send_of_clientDo_ok env c req status data hv hb hd
          rw [hr] at h
          simp only [Option.some.injEq] at h
          subst h
          refine ⟨rfl, he, ⟨req, status, rfl, hd, rfl, rfl, rfl⟩, rfl, ?_, rfl, ?_⟩
          · rw [Send_config]
          · intro sent
            rw [hframe sent, hr]

theorem send_response_fields_witness :
    (Send (sampleEnv notFoundServer) scenarioConfig).resp =
        some { Data := [110, 111], Status := 404, StatusText := "Not Found", Headers := none,
               Config := scenarioConfig.validate.1, Request := scenarioRequest } ∧
      (sampleEnv notFoundServer).replyHeader 0 = [("Content-Type", ["text/html"])] ∧
      scenarioConfig.validate.2 = none :=
  have hr : (Send (sampleEnv notFoundServer) scenarioConfig).resp =
      some { Data := [110, 111], Status := 404, StatusText := "Not Found", Headers := none,
             Config := scenarioConfig.validate.1, Request := scenarioRequest } := rfl
  ⟨hr, rfl, (send_response_fields (sampleEnv notFoundServer) scenarioConfig _ hr).1⟩

/-! ## Authentication and content-type headers -/

/-- When the bearer token and the basic-auth map are not both set, the two
independent `if` statements of `Send` set the headers of the else-if wording. -/
theorem sentHeader_eq_elseIf (env : Env) (config : Config)
    (h : ¬ (config.BearerToken ≠ "" ∧ config.BasicAuth.isSome = true)) :
    sentHeader env config = sentHeaderElseIf env config := by
  unfold sentHeader sentHeaderElseIf
  cases hA : config.BasicAuth.isSome
  · simp
  · have hT : config.BearerToken = "" := by
      by_contra hne
      exact h ⟨hne, hA⟩
    simp [hT, IsStringEmpty_eq_decide]

/-- The raw Authorization entry of the headers `Send` sets, when the caller
headers name no Authorization header. -/
theorem sentHeader_authorization (env : Env) (config : Config)
    (hno : ∀ headers, config.Headers = some headers →
      ∀ e ∈ headers, CanonicalMIMEHeaderKey e.1 ≠ "Authorization") :
    (sentHeader env config).lookup "Authorization" =
      if config.BearerToken ≠ "" then some ["Bearer " ++ config.BearerToken]
      else if config.BasicAuth.isSome = true then
        some ["Basic " ++ env.base64
          (config.BasicAuth.index "username" ++ ":" ++ config.BasicAuth.index "password")]
      else none := by
  have c1 : CanonicalMIMEHeaderKey "Content-Type" = "Content-Type" := by decide
  have c2 : CanonicalMIMEHeaderKey "Authorization" = "Authorization" := by decide
  have c3 : CanonicalMIMEHeaderKey "Accept" = "Accept" := by decide
  have c4 : CanonicalMIMEHeaderKey "User-Agent" = "User-Agent" := by decide
  have base : ∀ h : Header, h.lookup "Authorization" = none →
      ((((if config.BearerToken ≠ "" then
          (if config.BasicAuth.isSome = true then
            h.Set "Authorization" ("Basic " ++ env.base64
              (config.BasicAuth.index "username" ++ ":" ++ config.BasicAuth.index "password"))
            else h).Set "Authorization" ("Bearer " ++ config.BearerToken)
          else (if config.BasicAuth.isSome = true then
            h.Set "Authorization" ("Basic " ++ env.base64
              (config.BasicAuth.index "username" ++ ":" ++ config.BasicAuth.index "password"))
            else h)).Set "Accept" config.Accepts).Set "User-Agent" config.UserAgent).lookup
          "Authorization") =
        if config.BearerToken ≠ "" then some ["Bearer " ++ config.BearerToken]
        else if config.BasicAuth.isSome = true then
          some ["Basic " ++ env.base64
            (config.BasicAuth.index "username" ++ ":" ++ config.BasicAuth.index "password")]
        else none := by
    intro h hnone
    rw [lookup_Set, lookup_Set, c3, c4, if_neg (by decide), if_neg (by decide)]
    by_cases hT : config.BearerToken ≠ ""
    · rw [if_pos hT, if_pos hT, lookup_Set, c2, if_pos rfl]
    · rw [if_neg hT, if_neg hT]
      by_cases hA : config.BasicAuth.isSome = true
      · rw [if_pos hA, if_pos hA, lookup_Set, c2, if_pos rfl]
      · rw [if_neg hA, if_neg hA, hnone]
  have start : ∀ b : Bool,
      (if b = true then Header.Set [] "Content-Type" config.ContentType
        else ([] : Header)).lookup "Authorization" = none := by
    intro b
    cases b
    · rfl
    · rw [if_pos rfl, lookup_Set, c1, if_neg (by decide)]
      rfl
  have hbase := base _ (start config.Body.isSome)
  unfold sentHeader
  simp only [IsStringEmpty_eq_decide, Bool.not_eq_true', decide_eq_false_iff_not]
  cases hH : config.Headers with
  | none =>
    simp only []
    convert hbase using 3
  | some headers =>
    simp only []
    rw [lookup_foldl_Set_of_ne "Authorization" headers _ (hno headers hH)]
    convert hbase using 3

/-- C15, as stated, fails: a caller header whose key is "authorization" in
lower case is no entry under the key "Authorization", yet `Header.Set` stores
it under the canonical name Authorization, after the bearer header, so the
request carries the caller's value and not "Bearer " followed by the token. -/
theorem send_bearer_header_counterexample :
    bearerLowerAuthConfig.validate.2 = none ∧ bearerLowerAuthConfig.BearerToken = "t0k" ∧
      bearerLowerAuthConfig.Headers = some [("authorization", "mine")] ∧
      bearerLowerAuthConfig.Headers.WF ∧
      (∀ e ∈ [(("authorization", "mine") : String × String)], e.1 ≠ "Authorization") ∧
      ∃ req, (buildRequest (sampleEnv notFoundServer) bearerLowerAuthConfig.validate.1).1
          = .ok req ∧
        req.Header.Get "Authorization" = "mine" ∧
        req.Header.Get "Authorization" ≠ "Bearer " ++ "t0k" :=
  ⟨by decide, rfl, rfl, by simp [GoMap.WF, bearerLowerAuthConfig, Config.zero], by decide,
    _, rfl, by decide, by decide⟩

/-- C15, amended: on a config that passes validation, with a non-empty bearer
token `t` and no caller header whose name is Authorization in any letter case
(no entry whose canonical name is "Authorization"), the request `Send` builds
has the header Authorization equal to "Bearer " followed by `t`; validation
has made sure the basic-auth map is nil, so the headers set by the two
independent `if` statements are those of the basic-auth / else-if-bearer
wording. -/
theorem send_bearer_header (env : Env) (c : Config) (req : Request) (t : String)
    (hv : c.validate.2 = none) (ht : c.BearerToken = t) (hne : t ≠ "")
    (hno : ∀ headers, c.Headers = some headers →
      ∀ e ∈ headers, CanonicalMIMEHeaderKey e.1 ≠ "Authorization")
    (hb : (buildRequest env c.validate.1).1 = .ok req) :
    req.Header.Get "Authorization" = "Bearer " ++ t ∧
      req.Header.lookup "Authorization" = some ["Bearer " ++ t] ∧
      c.validate.1.BasicAuth = none ∧
      req.Header = sentHeaderElseIf env c.validate.1 := by
  obtain ⟨_, hauth, _⟩ := validate_ok c hv
  obtain ⟨_, _, _, hheaders, hbasic, hbearer⟩ := validate_keeps c
  obtain ⟨hH, _⟩ := buildRequest_ok env c.validate.1 req hb
  have hT : c.validate.1.BearerToken ≠ "" := by rw [hbearer, ht]; exact hne
  have hlook : req.Header.lookup "Authorization" = some ["Bearer " ++ t] := by
    rw [hH, sentHeader_authorization env c.validate.1 (by rw [hheaders]; exact hno), if_pos hT,
      hbearer, ht]
  have hnil : c.validate.1.BasicAuth = none := by
    rw [hbasic]
    cases hA : c.BasicAuth with
    | none => rfl
    | some m => exact absurd ⟨by rw [ht]; exact hne, by rw [hA]; rfl⟩ hauth
  refine ⟨?_, hlook, hnil, ?_⟩
  · unfold Header.Get
    rw [show CanonicalMIMEHeaderKey "Authorization" = "Authorization" by decide, hlook]
  · rw [hH]
    exact sentHeader_eq_elseIf env c.validate.1 (fun h => by rw [hnil] at h; simp at h)

theorem send_bearer_header_witness :
    bearerTraceConfig.validate.2 = none ∧ bearerTraceConfig.BearerToken = "t0k" ∧
      bearerTraceConfig.Headers = some [("X-Trace", "1")] ∧
      (∃ req, (buildRequest (sampleEnv notFoundServer) bearerTraceConfig.validate.1).1
          = .ok req ∧
        req.Header.Get "Authorization" = "Bearer t0k" ∧ req.Header.Get "X-Trace" = "1") ∧
      (buildRequest (sampleEnv notFoundServer) bearerConfig.validate.1).1 = .ok bearerRequest ∧
      bearerRequest.Header.Get "Authorization" = "Bearer t0k" :=
  have hno : ∀ headers, bearerTraceConfig.Headers = some headers →
      ∀ e ∈ headers, CanonicalMIMEHeaderKey e.1 ≠ "Authorization" := by
    intro headers hh e he
    have hl : headers = [("X-Trace", "1")] := (Option.some.inj hh).symm
    subst hl
    rw [List.mem_singleton.1 he]
    decide
  ⟨by decide, rfl, rfl,
    ⟨_, rfl,
      (send_bearer_header (sampleEnv notFoundServer) bearerTraceConfig _ "t0k"
        (by decide) rfl (by decide) hno rfl).1, by decide⟩,
    rfl,
    (send_bearer_header (sampleEnv notFoundServer) bearerConfig bearerRequest "t0k"
      (by decide) rfl (by decide) (fun headers h => by simp [bearerConfig, Config.zero] at h)
      rfl).1⟩

/-- The headers `Send` sets are its own headers with the caller headers
applied on top. -/
theorem sentHeader_eq_own (env : Env) (config : Config) :
    sentHeader env config =
      match config.Headers with
      | some headers => headers.foldl (fun h kv => Header.Set h kv.1 kv.2) (ownHeader env config)
      | none => ownHeader env config := rfl

/-- The headers `Send` sets itself for a config with a body hold its content
type. -/
theorem ownHeader_content_type (env : Env) (config : Config)
    (hbody : config.Body.isSome = true) :
    (ownHeader env config).lookup "Content-Type" = some [config.ContentType] := by
  have c1 : CanonicalMIMEHeaderKey "Content-Type" = "Content-Type" := by decide
  have c2 : CanonicalMIMEHeaderKey "Authorization" = "Authorization" := by decide
  have c3 : CanonicalMIMEHeaderKey "Accept" = "Accept" := by decide
  have c4 : CanonicalMIMEHeaderKey "User-Agent" = "User-Agent" := by decide
  have n2 : ("Content-Type" = "Authorization") = False := by decide
  have n3 : ("Content-Type" = "Accept") = False := by decide
  have n4 : ("Content-Type" = "User-Agent") = False := by decide
  unfold ownHeader
  cases hA : config.BasicAuth.isSome <;> cases hT : IsStringEmpty config.BearerToken <;>
    simp [hbody, lookup_Set, c1, c2, c3, c4, n2, n3, n4]

/-- The raw Content-Type entry of the headers `Send` sets for a config with a
body: it is there, and it holds the content type of the config when no caller
header names Content-Type. -/
theorem sentHeader_content_type (env : Env) (config : Config)
    (hbody : config.Body.isSome = true) :
    ((sentHeader env config).lookup "Content-Type").isSome = true ∧
      ((∀ headers, config.Headers = some headers →
          ∀ e ∈ headers, CanonicalMIMEHeaderKey e.1 ≠ "Content-Type") →
        (sentHeader env config).lookup "Content-Type" = some [config.ContentType]) := by
  have hown := ownHeader_content_type env config hbody
  rw [sentHeader_eq_own]
  cases hH : config.Headers with
  | none =>
    simp only []
    exact ⟨by rw [hown]; rfl, fun _ => hown⟩
  | some headers =>
    simp only []
    exact ⟨lookup_foldl_Set_isSome "Content-Type" headers _ (by rw [hown]; rfl),
      fun hno => by rw [lookup_foldl_Set_of_ne "Content-Type" headers _ (hno headers rfl), hown]⟩

/-- C16: the GET/body check compares the method with the literal "GET": a
config with a body, without an auth conflict and with any other method, "get"
and "Get" included, passes validation. For the method "get" the request `Send`
builds has the method "GET", carries the serialised body and has a
Content-Type header; it is built whenever the body serialises and the URL
parses. -/
theorem validate_get_case_sensitive (c : Config) (hbody : c.Body ≠ none)
    (hauth : ¬ (c.BearerToken ≠ "" ∧ c.BasicAuth ≠ none)) (hm : c.Method ≠ "GET") :
    c.validate.2 = none ∧
      (c.Method = "get" → ∀ (env : Env) (req : Request),
        (buildRequest env c.validate.1).1 = .ok req →
        req.Method = "GET" ∧
        (∃ body b, c.Body = some body ∧ env.jsonMarshal body = .ok b ∧ req.Body = some b) ∧
        req.Header.Has "Content-Type" = true) ∧
      (c.Method = "get" → ∀ (env : Env) (body : List (String × Any)) (b : Bytes),
        c.Body = some body → env.jsonMarshal body = .ok b → env.parseURL c.URL = none →
        ∃ req, (buildRequest env c.validate.1).1 = .ok req ∧ req.Method = "GET" ∧
          req.Body = some b ∧ req.Header.Has "Content-Type" = true) := by
  have hv : c.validate.2 = none := by
    rw [validate_eq, if_neg (fun h => hauth ⟨h.1, (isSome_iff_ne_none _).1 h.2⟩),
      if_neg (fun h => hm h.2)]
  obtain ⟨hmeth, hurl, hbodyeq, _, _, _⟩ := validate_keeps c
  have hsome : c.validate.1.Body.isSome = true := by
    rw [hbodyeq]
    exact (isSome_iff_ne_none _).2 hbody
  have hhas : ∀ env, Header.Has (sentHeader env c.validate.1) "Content-Type" = true := by
    intro env
    unfold Header.Has
    rw [show CanonicalMIMEHeaderKey "Content-Type" = "Content-Type" by decide]
    exact (sentHeader_content_type env c.validate.1 hsome).1
  have hupper : ∀ env : Env, c.Method = "get" → requestMethod env c.validate.1 = "GET" := by
    intro env hget
    unfold requestMethod
    rw [hmeth, hget]
    rfl
  refine ⟨hv, ?_, ?_⟩
  · intro hget env req hb
    obtain ⟨hH, hM, _, _, hB⟩ := buildRequest_ok env c.validate.1 req hb
    refine ⟨by rw [hM, hupper env hget], ?_, by rw [hH]; exact hhas env⟩
    cases hbd : c.Body with
    | none => exact absurd hbd hbody
    | some body =>
      obtain ⟨b, hmar, hrb⟩ := hB body (by rw [hbodyeq]; exact hbd)
      exact ⟨body, b, rfl, hmar, hrb⟩
  · intro hget env body b hbd hmar hparse
    have hn := NewRequest_succeeds env (ToUpper env.upperRune c.validate.1.Method)
      c.validate.1.URL (some b) (by rw [hmeth, hget]; rfl) (by rw [hurl]; exact hparse)
    have hb := buildRequest_of_newRequest env c.validate.1 (some b) _
      (Or.inr ⟨body, b, by rw [hbodyeq]; exact hbd, hmar, rfl⟩) hn
    exact ⟨_, hb, hupper env hget, rfl, hhas env⟩

theorem validate_get_case_sensitive_witness :
    lowerGetBodyConfig.Body ≠ none ∧ lowerGetBodyConfig.Method = "get" ∧
      lowerGetBodyConfig.validate.2 = none ∧
      ∃ req, (buildRequest (sampleEnv notFoundServer) lowerGetBodyConfig.validate.1).1 = .ok req ∧
        req.Method = "GET" ∧ req.Body = some [123, 125] ∧
        req.Header.Has "Content-Type" = true :=
  have hbody : lowerGetBodyConfig.Body ≠ none := by simp [lowerGetBodyConfig]
  have h := validate_get_case_sensitive lowerGetBodyConfig hbody
    (fun h => absurd rfl h.1) (by decide)
  ⟨hbody, rfl, h.1,
    h.2.2 rfl (sampleEnv notFoundServer) [("a", Any.int 1)] [123, 125] rfl rfl rfl⟩

/-- C18, as stated, fails: a caller header whose key is "content-type" in
lower case is no entry under the key "Content-Type", yet `Header.Set` stores
it under the canonical name Content-Type, after the header `Send` has set, so
the request carries the caller's value and not the empty string. -/
theorem validate_keeps_unset_content_type_counterexample :
    unsetTypeLowerConfig.ContentType = "" ∧ unsetTypeLowerConfig.AsMultipart = false ∧
      unsetTypeLowerConfig.AsURLEncoded = false ∧ unsetTypeLowerConfig.Body ≠ none ∧
      unsetTypeLowerConfig.validate.2 = none ∧
      unsetTypeLowerConfig.validate.1.ContentType = "" ∧
      unsetTypeLowerConfig.Headers = some [("content-type", "a/b")] ∧
      unsetTypeLowerConfig.Headers.WF ∧
      (∀ e ∈ [(("content-type", "a/b") : String × String)], e.1 ≠ "Content-Type") ∧
      ∃ req, (buildRequest (sampleEnv notFoundServer) unsetTypeLowerConfig.validate.1).1
          = .ok req ∧
        req.Header.Get "Content-Type" = "a/b" ∧ req.Header.Get "Content-Type" ≠ "" :=
  ⟨rfl, rfl, rfl, by simp [unsetTypeLowerConfig], by decide, by decide, rfl,
    by simp [GoMap.WF, unsetTypeLowerConfig, Config.zero], by decide,
    _, rfl, by decide, by decide⟩

/-- C18, amended: a config that leaves the content type unset, with both
encoding flags unset, still has the empty content type after `validate`,
error or not; so for such a config with a body that passes validation, and
without a caller header whose name is Content-Type in any letter case (no
entry whose canonical name is "Content-Type"), the request `Send` builds has
a Content-Type header whose value is the empty string. -/
theorem validate_keeps_unset_content_type (c : Config) (hct : c.ContentType = "")
    (hm : c.AsMultipart = false) (hu : c.AsURLEncoded = false) :
    c.validate.1.ContentType = "" ∧
      (∀ (env : Env) (req : Request), c.validate.2 = none → c.Body ≠ none →
        (∀ headers, c.Headers = some headers →
          ∀ e ∈ headers, CanonicalMIMEHeaderKey e.1 ≠ "Content-Type") →
        (buildRequest env c.validate.1).1 = .ok req →
        req.Header.Has "Content-Type" = true ∧
        req.Header.lookup "Content-Type" = some [""] ∧
        req.Header.Get "Content-Type" = "") := by
  have hempty : c.validate.1.ContentType = "" := by
    rcases validate_fst_defaulted c with h | h <;> rw [h]
    · exact hct
    · simp [Config.normalised, hct, hm, hu]
  refine ⟨hempty, ?_⟩
  intro env req hv hbody hno hb
  obtain ⟨_, _, hbodyeq, hheaders, _, _⟩ := validate_keeps c
  obtain ⟨hH, _⟩ := buildRequest_ok env c.validate.1 req hb
  have hsome : c.validate.1.Body.isSome = true := by
    rw [hbodyeq]
    exact (isSome_iff_ne_none _).2 hbody
  have hlook : req.Header.lookup "Content-Type" = some [""] := by
    rw [hH, (sentHeader_content_type env c.validate.1 hsome).2 (by rw [hheaders]; exact hno),
      hempty]
  have hcanon : CanonicalMIMEHeaderKey "Content-Type" = "Content-Type" := by decide
  refine ⟨?_, hlook, ?_⟩
  · unfold Header.Has
    rw [hcanon, hlook]
    rfl
  · unfold Header.Get
    rw [hcanon, hlook]

theorem validate_keeps_unset_content_type_witness :
    unsetTypeTraceConfig.ContentType = "" ∧ unsetTypeTraceConfig.AsMultipart = false ∧
      unsetTypeTraceConfig.AsURLEncoded = false ∧ unsetTypeTraceConfig.validate.2 = none ∧
      unsetTypeTraceConfig.Headers = some [("X-Trace", "1")] ∧
      unsetTypeTraceConfig.validate.1.ContentType = "" ∧
      (∃ req, (buildRequest (sampleEnv notFoundServer) unsetTypeTraceConfig.validate.1).1
          = .ok req ∧
        req.Header.lookup "Content-Type" = some [""] ∧ req.Header.Get "X-Trace" = "1") ∧
      ∃ req, (buildRequest (sampleEnv notFoundServer) unsetTypeConfig.validate.1).1 = .ok req ∧
        req.Header.lookup "Content-Type" = some [""] :=
  have h := validate_keeps_unset_content_type unsetTypeTraceConfig rfl rfl rfl
  have h0 := validate_keeps_unset_content_type unsetTypeConfig rfl rfl rfl
  have hno : ∀ headers, unsetTypeTraceConfig.Headers = some headers →
      ∀ e ∈ headers, CanonicalMIMEHeaderKey e.1 ≠ "Content-Type" := by
    intro headers hh e he
    have hl : headers = [("X-Trace", "1")] := (Option.some.inj hh).symm
    subst hl
    rw [List.mem_singleton.1 he]
    decide
  ⟨rfl, rfl, rfl, by decide, rfl, h.1,
    ⟨_, rfl,
      (h.2 (sampleEnv notFoundServer) _ (by decide) (by simp [unsetTypeTraceConfig]) hno
        rfl).2.1, by decide⟩,
    _, rfl,
    (h0.2 (sampleEnv notFoundServer) _ (by decide) (by simp [unsetTypeConfig])
      (fun headers hh => by simp [unsetTypeConfig, Config.zero] at hh) rfl).2.1⟩

end Gozzle
